import Mathlib

/-!
Verification development for the mobius-vibe personal-assistant core:
a shallow embedding of the rule-based NLU classifier and entity extractor
(`src/nlu/nlu_processor.py`), the task dispatcher
(`src/task_manager/task_executor.py`) and the short-term conversation memory
(`src/memory/memory_manager.py`), together with theorems settling the
specification claims about them.

Modelling conventions:
- spaCy tokens/NER output are an external collaborator; a token is modelled by
  the attributes the code reads (text, lemma, POS tag, and the boolean flags
  `is_title`, `is_punct`, `is_stop`, `like_num`, `like_email`).  A document is
  the ordered token list plus the NER entity list; per the spec invariant,
  `token.i` equals the token's list position.
- Python dicts with string keys are association lists built only through the
  update operations below; Python exceptions are an explicit `PyExc` value in
  an `Except` result; external collaborators (calendar, email, `os.startfile`,
  HTTP search, WHOIS, `subprocess.run`, `urllib.parse.quote_plus`) are oracle
  functions supplied in an `Env`, each invocation being recorded in a call
  trace so that "no collaborator call" claims are statements about the trace.
-/

/-- A parsed token as consumed by the NLU code: the spaCy attributes that
`nlu_processor.py` actually reads. -/
structure Token where
  text : String
  lemma_ : String
  pos_ : String
  is_title : Bool
  is_punct : Bool
  is_stop : Bool
  like_num : Bool
  like_email : Bool
  deriving DecidableEq, Repr

/-- A named entity from the upstream NER collaborator (`doc.ents`). -/
structure Ent where
  label : String
  text : String
  deriving DecidableEq, Repr

/-- A parsed document: token sequence plus NER entities. -/
structure Doc where
  tokens : List Token
  ents : List Ent
  deriving DecidableEq, Repr

/-- An entity bag value: Python code stores either a single string or a list
of strings under each key. -/
inductive EVal where
  | s (str : String)
  | l (strs : List String)
  deriving DecidableEq, Repr

/-- The entity bag: a string-keyed Python dict, modelled as an association
list (keys unique because it is only built through `dictSet`). -/
abbrev EntityBag := List (String × EVal)

/-- Dict lookup: `d.get(k)` / `k in d`. -/
def dictGet (bag : EntityBag) (k : String) : Option EVal :=
  (bag.find? (fun p => p.1 == k)).map (fun p => p.2)

/-- Dict lookup with default: `d.get(k, v)`. -/
def dictGetD (bag : EntityBag) (k : String) (v : EVal) : EVal :=
  (dictGet bag k).getD v

/-- Dict assignment `d[k] = v`: replace in place if the key exists, otherwise
append. -/
def dictSet (bag : EntityBag) (k : String) (v : EVal) : EntityBag :=
  if bag.any (fun p => p.1 == k) then
    bag.map (fun p => if p.1 == k then (k, v) else p)
  else
    bag ++ [(k, v)]

/-- Python exceptions, by the classes the dispatcher's `except` clauses
distinguish; each carries its `str(e)` rendering. -/
inductive PyExc where
  | fileNotFound (msg : String)
  | timeoutExpired (msg : String)
  | osError (msg : String)
  | pywhoisError (msg : String)
  | requestError (msg : String)
  | indexError (msg : String)
  | attributeError (msg : String)
  | generic (msg : String)
  deriving DecidableEq, Repr

/-- `str(e)` of a Python exception. -/
def PyExc.msg : PyExc → String
  | .fileNotFound m => m
  | .timeoutExpired m => m
  | .osError m => m
  | .pywhoisError m => m
  | .requestError m => m
  | .indexError m => m
  | .attributeError m => m
  | .generic m => m

instance : DecidableEq (Except PyExc String) := fun a b =>
  match a, b with
  | .ok x, .ok y =>
    if h : x = y then .isTrue (congrArg Except.ok h)
    else .isFalse (fun hh => h (Except.ok.inj hh))
  | .error x, .error y =>
    if h : x = y then .isTrue (congrArg Except.error h)
    else .isFalse (fun hh => h (Except.error.inj hh))
  | .ok _, .error _ => .isFalse (fun hh => Except.noConfusion hh)
  | .error _, .ok _ => .isFalse (fun hh => Except.noConfusion hh)

/-- `' '.join(parts)` on a list of strings. -/
def joinSpace : List String → String
  | [] => ""
  | [x] => x
  | x :: xs => x ++ " " ++ joinSpace xs

/-- `'\n'.join(parts)` on a list of strings. -/
def joinNewline : List String → String
  | [] => ""
  | [x] => x
  | x :: xs => x ++ "\n" ++ joinNewline xs

/-- The whitespace characters stripped by Python `str.strip()` that can occur
in our inputs. -/
def pyWsChar (c : Char) : Bool :=
  [' ', '\t', '\n', '\r', '\x0b', '\x0c'].contains c

/-- Strip leading and trailing whitespace from a character list. -/
def trimChars (l : List Char) : List Char :=
  ((l.dropWhile pyWsChar).reverse.dropWhile pyWsChar).reverse

/-- Python `s.strip()`. -/
def pyStrip (s : String) : String :=
  String.mk (trimChars s.data)

/-- Split a character list on a separator character; like Python
`s.split(sep)`, the result always has one more group than separators. -/
def splitOnChar (c : Char) : List Char → List (List Char)
  | [] => [[]]
  | x :: xs =>
    let r := splitOnChar c xs
    if x = c then [] :: r
    else
      match r with
      | h :: t => (x :: h) :: t
      | [] => [[x]]

/-- Python `s.isdigit()` (restricted to ASCII digits, the only digits our
inputs contain): true iff the string is nonempty and all digits. -/
def isDigitsPy (s : String) : Bool :=
  !s.data.isEmpty && s.data.all Char.isDigit

/-- Python `s.replace('.', '')`. -/
def removeDots (s : String) : String :=
  String.mk (s.data.filter (fun c => c ≠ '.'))

/-- Python `ch in s` for a single character. -/
def strHasChar (s : String) (c : Char) : Bool :=
  s.data.contains c

/-- The anchored regex `^\d{1,3}\.\d{1,3}\.\d{1,3}\.\d{1,3}$` from
`_extract_entities`: four groups of one to three digits separated by dots. -/
def isIpQuad (s : String) : Bool :=
  let groups := splitOnChar '.' s.data
  groups.length == 4 &&
    groups.all (fun g => 1 ≤ g.length && g.length ≤ 3 && g.all Char.isDigit)

/-- `needle` occurs as a contiguous substring of `hay`. -/
def strInfix (needle hay : String) : Prop :=
  ∃ l r, hay.data = l ++ needle.data ++ r

/-! ## Intent classifier (`NLUProcessor._recognize_intent`) -/

/-- `lem in tokens_lemma`: some token of the document has this lemma. -/
def hasLemma (toks : List Token) (lem : String) : Bool :=
  toks.any (fun t => t.lemma_ == lem)

/-- `any(t in tokens_lemma for t in lems)`. -/
def anyLemma (toks : List Token) (lems : List String) : Bool :=
  lems.any (hasLemma toks)

/-- The check on the token following an `open`/`launch`/`start` trigger
(line 62 of `nlu_processor.py`): noun-like POS, title case, or a known
application name. -/
def openAppNextOk (next : Token) : Bool :=
  ["NOUN", "PROPN", "X"].contains next.pos_ || next.is_title ||
    ["chrome", "firefox", "edge", "notepad", "calculator"].contains next.text.toLower

/-- The inner loop of rule 4: some trigger token has a next token passing
`openAppNextOk` (adjacent pairs, since `token.i` is the list position). -/
def openAppPositional (toks : List Token) : Bool :=
  (toks.zip toks.tail).any
    (fun p => ["open", "launch", "start"].contains p.1.lemma_ && openAppNextOk p.2)

/-- `NLUProcessor._recognize_intent`, translated branch by branch from the
`if`/`elif` chain of `nlu_processor.py` lines 44–90.  Note that the rule-4
branch is entered on the lemma test alone; if its inner positional loop finds
nothing the function falls through to the final `return "unknown_intent"`
without evaluating the later `elif` conditions. -/
def recognize_intent (toks : List Token) : String :=
  if hasLemma toks "meeting" && anyLemma toks ["schedule", "book", "set up", "arrange"] then
    "schedule_meeting"
  else if anyLemma toks ["email", "mail"] && hasLemma toks "send" then
    "send_email"
  else if anyLemma toks ["message", "note"] && hasLemma toks "send" then
    "send_message"
  else if anyLemma toks ["open", "launch", "start"] then
    (if openAppPositional toks then "open_application" else "unknown_intent")
  else if anyLemma toks ["search", "find", "look up", "google"] then
    "search_web"
  else if anyLemma toks ["reminder", "remind"] then
    "set_reminder"
  else if anyLemma toks ["close", "exit", "quit"] then
    "close_application"
  else if anyLemma toks ["date", "time", "day", "today"] &&
      !(anyLemma toks ["schedule", "meeting", "reminder"]) then
    "get_current_datetime"
  else if anyLemma toks ["schedule", "book", "set up"] then
    "schedule_event"
  else if hasLemma toks "send" then
    "send_message"
  else if hasLemma toks "nmap" then
    "run_nmap"
  else if hasLemma toks "whois" then
    "run_whois"
  else
    "unknown_intent"

/-- The section-4.2 rule table as the spec words it: an ordered list of
(condition, intent) pairs, rule 4 carrying its full condition (lemma presence
AND the positional next-token check). -/
def specRules : List ((List Token → Bool) × String) :=
  [ (fun toks => hasLemma toks "meeting" && anyLemma toks ["schedule", "book", "set up", "arrange"],
      "schedule_meeting"),
    (fun toks => anyLemma toks ["email", "mail"] && hasLemma toks "send", "send_email"),
    (fun toks => anyLemma toks ["message", "note"] && hasLemma toks "send", "send_message"),
    (fun toks => anyLemma toks ["open", "launch", "start"] && openAppPositional toks,
      "open_application"),
    (fun toks => anyLemma toks ["search", "find", "look up", "google"], "search_web"),
    (fun toks => anyLemma toks ["reminder", "remind"], "set_reminder"),
    (fun toks => anyLemma toks ["close", "exit", "quit"], "close_application"),
    (fun toks => anyLemma toks ["date", "time", "day", "today"] &&
      !(anyLemma toks ["schedule", "meeting", "reminder"]), "get_current_datetime"),
    (fun toks => anyLemma toks ["schedule", "book", "set up"], "schedule_event"),
    (fun toks => hasLemma toks "send", "send_message"),
    (fun toks => hasLemma toks "nmap", "run_nmap"),
    (fun toks => hasLemma toks "whois", "run_whois") ]

/-- Modelled from the spec (section 4.2): first-match-wins evaluation of the
rule table, `unknown_intent` exactly when no rule's condition holds.  This is
the classifier the claim describes; it is compared against
`recognize_intent`, the one translated from the source. -/
def classifySpec (toks : List Token) : String :=
  ((specRules.find? (fun r => r.1 toks)).map (fun r => r.2)).getD "unknown_intent"

/-- The situation in which the source classifier short-circuits: rules 1–3
fail, an `open`/`launch`/`start` lemma is present, but the positional check
fails. -/
def openShortCircuit (toks : List Token) : Bool :=
  !(hasLemma toks "meeting" && anyLemma toks ["schedule", "book", "set up", "arrange"]) &&
  !(anyLemma toks ["email", "mail"] && hasLemma toks "send") &&
  !(anyLemma toks ["message", "note"] && hasLemma toks "send") &&
  anyLemma toks ["open", "launch", "start"] &&
  !(openAppPositional toks)

/-! ## Entity extractor (`NLUProcessor._extract_entities`) -/

/-- `entities.setdefault(k, []).append(t)` (and the equivalent
create-then-append used for `datetime`): append to the list stored at the key,
creating it if absent; raises `AttributeError` when the existing value is a
plain string, exactly as the Python `append` would. -/
def dictAppend (bag : EntityBag) (k : String) (t : String) : Except PyExc EntityBag :=
  match dictGet bag k with
  | none => .ok (dictSet bag k (.l [t]))
  | some (.l xs) => .ok (dictSet bag k (.l (xs ++ [t])))
  | some (.s _) => .error (.attributeError "str object has no attribute append")

/-- One iteration of the `for ent in doc.ents` bucketing loop
(`nlu_processor.py` lines 95–107). -/
def nerStep (bag : EntityBag) (ent : Ent) : Except PyExc EntityBag :=
  let label := ent.label.toLower
  if label == "date" || label == "time" then
    dictAppend bag "datetime" ent.text
  else if label == "person" then
    dictAppend bag "person" ent.text
  else if label == "org" || label == "product" then
    dictAppend bag "object_name" ent.text
  else
    .ok (dictSet bag label (.s ent.text))

/-- `' '.join(v)`: joins a list of strings; iterating a Python string joins
its characters. -/
def pyJoinSpaceVal : EVal → EVal
  | .l xs => .s (joinSpace xs)
  | .s str => .s (joinSpace (str.data.map (fun c => String.mk [c])))

/-- Lines 110–111: `if 'datetime' in entities: entities['datetime'] = ' '.join(...)`. -/
def datetimeJoinPhase (bag : EntityBag) : EntityBag :=
  match dictGet bag "datetime" with
  | none => bag
  | some v => dictSet bag "datetime" (pyJoinSpaceVal v)

/-- Lines 114–116: the last token flagged `like_email` wins. -/
def emailPhase (toks : List Token) (bag : EntityBag) : EntityBag :=
  toks.foldl
    (fun b t => if t.like_email then dictSet b "email_address" (.s t.text) else b) bag

/-- Lines 126–135: collect up to the cap following non-punctuation,
non-verb tokens (append, then `if len(parts) > 3: break`). -/
def collectNameParts (acc : List String) : List Token → List String
  | [] => acc
  | t :: rest =>
    if t.is_punct || t.pos_ == "VERB" then acc
    else
      let acc2 := acc ++ [t.text]
      if acc2.length > 3 then acc2 else collectNameParts acc2 rest

/-- Lines 123–144: the first trigger token that is not last and whose
capture is nonempty provides the application name. -/
def appNameScan : List Token → Option String
  | [] => none
  | t :: rest =>
    if ["open", "launch", "start", "close", "quit", "exit"].contains t.lemma_ &&
        !rest.isEmpty then
      let parts := collectNameParts [] rest
      if !parts.isEmpty then some (joinSpace parts) else appNameScan rest
    else appNameScan rest

/-- Lines 121–144: the `open_application`/`close_application` fallback name
extraction (only when NER produced no `object_name`). -/
def appNamePhase (intent : String) (toks : List Token) (bag : EntityBag) : EntityBag :=
  if (intent == "open_application" || intent == "close_application") &&
      (dictGet bag "object_name").isNone then
    match appNameScan toks with
    | some nm => dictSet bag "object_name" (.l [nm])
    | none => bag
  else bag

/-- Lines 153–156: the tokens after the first `search`/`find`/`look up`/
`google` trigger lemma, or `none` when `start_index` stays `-1`. -/
def searchTriggerRest : List Token → Option (List Token)
  | [] => none
  | t :: rest =>
    if ["search", "find", "look up", "google"].contains t.lemma_ then some rest
    else searchTriggerRest rest

/-- Lines 158–167: skip one immediately following preposition, then any
determiner/pronoun run; the remaining token texts are the query parts. -/
def searchQueryParts (toks : List Token) : List String :=
  match searchTriggerRest toks with
  | none => []
  | some afterTrig =>
    let afterPrep :=
      match afterTrig with
      | t :: rest => if ["for", "about", "on"].contains t.lemma_ then rest else afterTrig
      | [] => []
    let afterDet := afterPrep.dropWhile (fun t => t.pos_ == "DET" || t.pos_ == "PRON")
    afterDet.map (fun t => t.text)

/-- Lines 147–169: the `search_web` query extraction
(`if query_parts: entities['search_query'] = ' '.join(query_parts).strip()`). -/
def searchPhase (intent : String) (toks : List Token) (bag : EntityBag) : EntityBag :=
  if intent == "search_web" then
    let qp := searchQueryParts toks
    if !qp.isEmpty then dictSet bag "search_query" (.s (pyStrip (joinSpace qp)))
    else bag
  else bag

/-- Line 193: tokens skipped during the nmap/whois target scan. -/
def targetSkip (t : Token) : Bool :=
  t.is_punct || t.is_stop || ["at", "on", "for"].contains t.lemma_

/-- Lines 205–207: the heuristic domain match on the stripped token text. -/
def domainCheck (t : Token) (s : String) : Bool :=
  strHasChar s '.' && !t.like_num && !(isDigitsPy (removeDots s)) &&
    s.length > 1 && 1 ≤ s.data.count '.'

/-- Lines 188–215: the forward scan after the trigger; each token is skipped,
matched as an IP (break), matched as a domain (break), or passed over. -/
def targetScan : List Token → Option String
  | [] => none
  | t :: rest =>
    let s := pyStrip t.text
    if targetSkip t then targetScan rest
    else if isIpQuad s then some s
    else if domainCheck t s then some s
    else targetScan rest

/-- Lines 179–182: the tokens after the first `nmap`/`whois` trigger lemma. -/
def nmapTriggerRest : List Token → Option (List Token)
  | [] => none
  | t :: rest =>
    if ["nmap", "whois"].contains t.lemma_ then some rest else nmapTriggerRest rest

/-- Lines 172–223: the `run_nmap`/`run_whois` target extraction (only when no
`target_address` is already present). -/
def targetPhase (intent : String) (toks : List Token) (bag : EntityBag) : EntityBag :=
  if (intent == "run_nmap" || intent == "run_whois") &&
      (dictGet bag "target_address").isNone then
    match nmapTriggerRest toks with
    | none => bag
    | some rest =>
      match targetScan rest with
      | some target => dictSet bag "target_address" (.s target)
      | none => bag
  else bag

/-- The NER bucketing, datetime join and email scan: everything
`_extract_entities` does before the intent-dependent blocks. -/
def nerEmailPhase (d : Doc) : Except PyExc EntityBag := do
  let bag ← d.ents.foldlM nerStep ([] : EntityBag)
  return emailPhase d.tokens (datetimeJoinPhase bag)

/-- `NLUProcessor._extract_entities`, as the composition of its phases in
source order.  The result is `Except` because the NER bucketing loop can
raise (appending to a non-list value); every other phase is total. -/
def extract_entities (d : Doc) : Except PyExc EntityBag := do
  let bag ← nerEmailPhase d
  let intent := recognize_intent d.tokens
  let bag := appNamePhase intent d.tokens bag
  let bag := searchPhase intent d.tokens bag
  let bag := targetPhase intent d.tokens bag
  return bag

/-- Modelled from the spec (section 4.1): a token text is "purely numeric"
when the tokenizer flags it as number-like or it is digits once the dots are
removed. -/
def specPurelyNumeric (t : Token) (s : String) : Bool :=
  t.like_num || isDigitsPy (removeDots s)

/-- Modelled from the spec (section 4.1, and claim C6): scan forward skipping
punctuation, stopwords and the prepositions `at`/`on`/`for`; take the first
remaining token matching the dotted-quad IPv4 pattern, otherwise the first
token containing a literal dot that is not purely numeric; stop there. -/
def specTargetScan : List Token → Option String
  | [] => none
  | t :: rest =>
    let s := pyStrip t.text
    if targetSkip t then specTargetScan rest
    else if isIpQuad s then some s
    else if strHasChar s '.' && !(specPurelyNumeric t s) then some s
    else specTargetScan rest

/-- Modelled from the spec: locate the first `nmap`/`whois` trigger lemma and
run the spec's target scan after it; absent when no trigger or no match. -/
def specTargetAddress (toks : List Token) : Option String :=
  match nmapTriggerRest toks with
  | none => none
  | some rest => specTargetScan rest

/-! ## Short-term memory (`MemoryManager.add_short_term`) -/

/-- One conversation turn `{'user': ..., 'assistant': ...}`. -/
structure ConversationTurn where
  user : String
  assistant : String
  deriving DecidableEq, Repr

/-- `MemoryManager.add_short_term`: append the turn, then pop the front
element if the length exceeds the configured limit. -/
def add_short_term (limit : Nat) (mem : List ConversationTurn)
    (turn : ConversationTurn) : List ConversationTurn :=
  let m := mem ++ [turn]
  if m.length > limit then m.tail else m

/-! ## Task dispatcher (`TaskExecutor.execute_task`) -/

/-- `subprocess.run` result (`returncode`, `stdout`, `stderr`). -/
structure CompletedProcess where
  returncode : Int
  stdout : String
  stderr : String
  deriving DecidableEq, Repr

/-- One DuckDuckGo related topic; `text` is empty when the `Text` field is
absent or empty (both are falsy in the source). -/
structure DDGTopic where
  text : String
  deriving DecidableEq, Repr

/-- The parsed DuckDuckGo instant-answer JSON, with the fields the source
reads; an absent field and an empty one behave identically (falsy). -/
structure DDGResponse where
  abstractText : String
  abstractSource : String
  abstractURL : String
  definition : String
  definitionSource : String
  definitionURL : String
  answer : String
  relatedTopics : List DDGTopic
  deriving DecidableEq, Repr

/-- One recorded collaborator invocation. -/
inductive Call where
  | calendar (summary : String) (start : EVal)
  | email (recipient subject body : EVal)
  | startfile (appName : String)
  | httpGet (url : String)
  | whois (target : EVal)
  | subproc (command : List EVal) (timeoutSec : Nat)
  deriving DecidableEq, Repr

/-- The dispatcher's collaborators as oracles: each call either returns a
value or raises a `PyExc`.  Quantifying over `Env` quantifies over every
collaborator behavior. -/
structure Env where
  osName : String
  nowFormatted : String
  quotePlus : EVal → Except PyExc String
  calendarSchedule : String → EVal → Except PyExc (Bool × String)
  emailSend : EVal → EVal → EVal → Except PyExc (Bool × String)
  startfile : String → Except PyExc Unit
  httpGet : String → Except PyExc DDGResponse
  whoisLookup : EVal → Except PyExc (List (String × String))
  subprocessRun : List EVal → Nat → Except PyExc CompletedProcess

/-- Python `value[0]` on an entity-bag value: first list element, or the
first character of a string (as a 1-character string); raises `IndexError`
when empty. -/
def index0 : EVal → Except PyExc String
  | .l [] => .error (.indexError "list index out of range")
  | .l (x :: _) => .ok x
  | .s str =>
    match str.data with
    | [] => .error (.indexError "string index out of range")
    | c :: _ => .ok (String.mk [c])

/-- Python truthiness of an entity-bag value. -/
def truthy : EVal → Bool
  | .s str => str != ""
  | .l xs => !xs.isEmpty

/-- Python `str(v)` of an entity-bag value (list repr as Python prints it). -/
def pyStr : EVal → String
  | .s str => str
  | .l xs => "[" ++ joinCommaQuoted xs ++ "]"
where
  joinCommaQuoted : List String → String
    | [] => ""
    | [x] => "'" ++ x ++ "'"
    | x :: xs => "'" ++ x ++ "', " ++ joinCommaQuoted xs

/-- The `schedule_meeting` branch (`task_executor.py` lines 38–46); no inner
`try`, so a raise escapes to the outer handler. -/
def scheduleMeetingBranch (env : Env) (entities : EntityBag) :
    List Call × Except PyExc String :=
  match index0 (dictGetD entities "person" (.l ["Someone"])) with
  | .error e => ([], .error e)
  | .ok person =>
    let datetimeStr := dictGetD entities "datetime" (.s "an unspecified time")
    let summary := "Meeting with " ++ person
    match env.calendarSchedule summary datetimeStr with
    | .error e => ([.calendar summary datetimeStr], .error e)
    | .ok res => ([.calendar summary datetimeStr], .ok res.2)

/-- The `send_email` branch (lines 47–58).  Python evaluates the fallback
`entities.get('person', [None])[0]` before the outer `get`, so an empty
`person` list raises even when `email_address` is present. -/
def sendEmailBranch (env : Env) (entities : EntityBag) :
    List Call × Except PyExc String :=
  let fallbackE : Except PyExc (Option EVal) :=
    match dictGet entities "person" with
    | none => .ok none
    | some v =>
      match index0 v with
      | .error e => .error e
      | .ok str => .ok (some (.s str))
  match fallbackE with
  | .error e => ([], .error e)
  | .ok fallback =>
    let recipient : Option EVal :=
      match dictGet entities "email_address" with
      | some v => some v
      | none => fallback
    match recipient with
    | some r =>
      if truthy r then
        let subject := dictGetD entities "subject" (.s "Quick Question")
        let body := dictGetD entities "body" (.s "...")
        match env.emailSend r subject body with
        | .error e => ([.email r subject body], .error e)
        | .ok res => ([.email r subject body], .ok res.2)
      else ([], .ok "Error: Could not determine recipient for email.")
    | none => ([], .ok "Error: Could not determine recipient for email.")

/-- The `send_message` branch (lines 59–64): no transport is wired up. -/
def sendMessageBranch (entities : EntityBag) : List Call × Except PyExc String :=
  match index0 (dictGetD entities "person" (.l ["Someone"])) with
  | .error e => ([], .error e)
  | .ok recipient =>
    let body := dictGetD entities "message_body" (.s "...")
    ([], .ok ("Action Required: Send message to " ++ recipient ++ ". Body: '" ++
      pyStr body ++ "'. (Integration not implemented)"))

/-- The launch attempt of `open_application` (lines 70–105): `os.startfile`,
with one retry appending `.exe` on Windows after a `FileNotFoundError`. -/
def openAttempt (env : Env) (an : String) : List Call × Except PyExc String :=
  match env.startfile an with
  | .ok _ => ([.startfile an], .ok ("Attempting to open " ++ an ++ "..."))
  | .error (.fileNotFound _) =>
    if env.osName == "nt" && !(an.toLower.endsWith ".exe") then
      let anExe := an ++ ".exe"
      match env.startfile anExe with
      | .ok _ =>
        ([.startfile an, .startfile anExe], .ok ("Attempting to open " ++ anExe ++ "..."))
      | .error (.fileNotFound _) =>
        ([.startfile an, .startfile anExe],
          .ok ("Error: Application or file '" ++ an ++ "' (or '" ++ anExe ++
            "') not found. Make sure it's in your system's PATH or provide the full path."))
      | .error e =>
        ([.startfile an, .startfile anExe],
          .ok ("Error: Could not open application '" ++ anExe ++
            "' even after adding .exe. Error: " ++ e.msg))
    else
      ([.startfile an],
        .ok ("Error: Application or file '" ++ an ++
          "' not found. Make sure it's in your system's PATH or provide the full path."))
  | .error (.osError m) =>
    ([.startfile an],
      .ok ("Error: Could not open application '" ++ an ++ "' due to an OS error: " ++ m))
  | .error e =>
    ([.startfile an],
      .ok ("Error: An unexpected error occurred while trying to open '" ++ an ++ "'. " ++
        e.msg))

/-- The `open_application` branch (lines 65–108). -/
def openApplicationBranch (env : Env) (entities : EntityBag) :
    List Call × Except PyExc String :=
  let appNameE : Except PyExc (Option String) :=
    match dictGet entities "object_name" with
    | none => .ok none
    | some v =>
      match index0 v with
      | .error e => .error e
      | .ok str => .ok (some str)
  match appNameE with
  | .error e => ([], .error e)
  | .ok (some an) =>
    if an != "" then openAttempt env an
    else ([], .ok "Error: No application name specified.")
  | .ok none => ([], .ok "Error: No application name specified.")

/-- Lines 147–154: the related-topics rendering loop (note the `i > 3` break
sits beside the `Text` test, so it fires after the fifth topic regardless). -/
def topicsText (i : Nat) : List DDGTopic → String
  | [] => ""
  | t :: rest =>
    (if t.text != "" then "- " ++ t.text ++ "\n" else "") ++
      (if i > 3 then "- ...and more.\n" else topicsText (i + 1) rest)

/-- Lines 136–154: the summary preference order (abstract, definition,
answer, related topics). -/
def buildSummary (d : DDGResponse) : String :=
  if d.abstractText != "" then
    "Summary: " ++ d.abstractText ++ "\n" ++
      (if d.abstractSource != "" && d.abstractURL != "" then
        "Source: " ++ d.abstractSource ++ " (" ++ d.abstractURL ++ ")\n"
      else "")
  else if d.definition != "" then
    "Definition: " ++ d.definition ++ "\n" ++
      (if d.definitionSource != "" && d.definitionURL != "" then
        "Source: " ++ d.definitionSource ++ " (" ++ d.definitionURL ++ ")\n"
      else "")
  else if d.answer != "" then
    "Answer: " ++ d.answer ++ "\n"
  else if !d.relatedTopics.isEmpty then
    "Related Topics:\n" ++ topicsText 0 d.relatedTopics
  else ""

/-- The inner `try` of the `search_web` branch (lines 125–168): URL-encode,
one GET, render; `RequestException` and generic failures caught separately. -/
def searchAttempt (env : Env) (qv : EVal) : List Call × Except PyExc String :=
  match env.quotePlus qv with
  | .error e =>
    ([], .ok ("Error: An unexpected error occurred during the web search for '" ++
      pyStr qv ++ "'. " ++ e.msg))
  | .ok encodedQuery =>
    let apiUrl := "https://api.duckduckgo.com/?q=" ++ encodedQuery ++
      "&format=json&pretty=0&no_html=1&skip_disambig=1"
    match env.httpGet apiUrl with
    | .error (.requestError m) =>
      ([.httpGet apiUrl], .ok ("Error: Could not connect to the search service. " ++ m))
    | .error e =>
      ([.httpGet apiUrl],
        .ok ("Error: An unexpected error occurred during the web search for '" ++
          pyStr qv ++ "'. " ++ e.msg))
    | .ok data =>
      let summary := buildSummary data
      if summary == "" then
        ([.httpGet apiUrl],
          .ok ("I couldn't find a direct answer or summary for '" ++ pyStr qv ++
            "'. You can try searching directly: https://duckduckgo.com/?q=" ++
            encodedQuery))
      else ([.httpGet apiUrl], .ok (pyStrip summary))

/-- The `search_web` branch (lines 120–171). -/
def searchWebBranch (env : Env) (entities : EntityBag) :
    List Call × Except PyExc String :=
  match dictGet entities "search_query" with
  | some qv =>
    if truthy qv then searchAttempt env qv
    else ([], .ok "Error: No search query specified.")
  | none => ([], .ok "Error: No search query specified.")

/-- The `run_whois` branch (lines 173–202). -/
def runWhoisBranch (env : Env) (entities : EntityBag) :
    List Call × Except PyExc String :=
  match dictGet entities "target_address" with
  | some tv =>
    if truthy tv then
      match env.whoisLookup tv with
      | .ok w =>
        if w.isEmpty ||
            ((w.find? (fun p => p.1 == "status")).map (fun p => p.2)
              == some "No match for domain") then
          ([.whois tv], .ok ("No WHOIS information found for '" ++ pyStr tv ++ "'."))
        else
          let formatted := joinNewline (w.map (fun kv => kv.1 ++ ": " ++ kv.2))
          ([.whois tv],
            .ok ("WHOIS lookup results for " ++ pyStr tv ++ ":\n" ++ formatted))
      | .error (.pywhoisError m) =>
        ([.whois tv], .ok ("Error during WHOIS lookup for '" ++ pyStr tv ++ "': " ++ m))
      | .error e =>
        ([.whois tv],
          .ok ("Error: An unexpected error occurred during WHOIS lookup for '" ++
            pyStr tv ++ "'. " ++ e.msg))
    else
      ([], .ok "Error: No target address (domain or IP) specified for WHOIS lookup.")
  | none => ([], .ok "Error: No target address (domain or IP) specified for WHOIS lookup.")

/-- The `run_nmap` branch (lines 204–235): one `subprocess.run` with
`timeout=120`, then the four-way outcome handling. -/
def runNmapBranch (env : Env) (entities : EntityBag) :
    List Call × Except PyExc String :=
  match dictGet entities "target_address" with
  | some tv =>
    if truthy tv then
      let command : List EVal := [.s "nmap", tv]
      match env.subprocessRun command 120 with
      | .ok cp =>
        if cp.returncode == 0 then
          ([.subproc command 120],
            .ok ("Nmap scan results for " ++ pyStr tv ++ ":\n" ++ cp.stdout))
        else
          let errorMessage :=
            if cp.stderr != "" then cp.stderr
            else "'nmap' command failed with return code " ++ toString cp.returncode ++
              ". Is 'nmap' installed and in PATH?"
          ([.subproc command 120],
            .ok ("Error running Nmap scan for " ++ pyStr tv ++ ": " ++ errorMessage))
      | .error (.fileNotFound _) =>
        ([.subproc command 120],
          .ok "Error: 'nmap' command not found. Please ensure it is installed and in your system's PATH.")
      | .error (.timeoutExpired _) =>
        ([.subproc command 120],
          .ok ("Error: Nmap command for '" ++ pyStr tv ++
            "' timed out after 120 seconds."))
      | .error e =>
        ([.subproc command 120],
          .ok ("Error: An unexpected error occurred during Nmap scan for '" ++
            pyStr tv ++ "'. " ++ e.msg))
    else
      ([], .ok "Error: No target address (domain or IP) specified for Nmap scan.")
  | none => ([], .ok "Error: No target address (domain or IP) specified for Nmap scan.")

/-- The body of the outer `try` of `execute_task`: the `if`/`elif` dispatch
on the intent (lines 36–244), returning the result string or the exception
that escapes, together with the collaborator call trace. -/
def executeInner (env : Env) (intent : String) (entities : EntityBag) :
    List Call × Except PyExc String :=
  if intent == "schedule_meeting" then scheduleMeetingBranch env entities
  else if intent == "send_email" then sendEmailBranch env entities
  else if intent == "send_message" then sendMessageBranch entities
  else if intent == "open_application" then openApplicationBranch env entities
  else if intent == "get_current_datetime" then
    ([], .ok ("The current date and time is " ++ env.nowFormatted ++ "."))
  else if intent == "search_web" then searchWebBranch env entities
  else if intent == "run_whois" then runWhoisBranch env entities
  else if intent == "run_nmap" then runNmapBranch env entities
  else if intent == "unknown" then
    ([], .ok "Sorry, I didn't understand that request.")
  else
    ([], .ok ("Action Required: Intent '" ++ intent ++
      "' is recognized but not implemented in the task executor yet."))

/-- The dispatcher's input: a dict that may lack the `intent` or `entities`
keys. -/
structure NLUResult where
  intent : Option String
  entities : Option EntityBag

/-- The generic failure string produced by the outer `except` (line 249). -/
def criticalMsg (intent : String) : String :=
  "An unexpected critical error occurred while processing your request for '" ++
    intent ++ "'."

/-- `TaskExecutor.execute_task` (lines 30–251): default the missing keys,
dispatch inside the outer `try`, convert any escaped exception into the
generic failure string.  Returns the result string and the collaborator call
trace. -/
def execute_task (env : Env) (r : NLUResult) : String × List Call :=
  let intent := r.intent.getD "unknown"
  let entities := r.entities.getD []
  match executeInner env intent entities with
  | (calls, .ok str) => (str, calls)
  | (calls, .error _) => (criticalMsg intent, calls)

/-! ## Named result messages, well-formedness predicates, example inputs -/

/-- The `run_nmap` success message (stdout returned verbatim). -/
def nmapSuccessMsg (t out : String) : String :=
  "Nmap scan results for " ++ t ++ ":\n" ++ out

/-- The `run_nmap` non-zero-exit message. -/
def nmapFailMsg (t errorMessage : String) : String :=
  "Error running Nmap scan for " ++ t ++ ": " ++ errorMessage

/-- The fallback error text when stderr is empty. -/
def nmapRcFallback (rc : Int) : String :=
  "'nmap' command failed with return code " ++ toString rc ++
    ". Is 'nmap' installed and in PATH?"

/-- The `run_nmap` binary-not-found message. -/
def nmapNotFoundMsg : String :=
  "Error: 'nmap' command not found. Please ensure it is installed and in your system's PATH."

/-- The `run_nmap` timeout message. -/
def nmapTimeoutMsg (t : String) : String :=
  "Error: Nmap command for '" ++ t ++ "' timed out after 120 seconds."

/-- The `run_nmap` generic unexpected-failure message. -/
def nmapUnexpectedMsg (t m : String) : String :=
  "Error: An unexpected error occurred during Nmap scan for '" ++ t ++ "'. " ++ m

/-- A token is well formed when its surface text is nonempty and contains no
whitespace (real tokenizers emit whitespace-free word tokens). -/
def goodTokenText (t : Token) : Prop :=
  t.text ≠ "" ∧ ∀ c ∈ t.text.data, pyWsChar c = false

/-- Well-formed parsed input: whitespace-free nonempty token texts, nonempty
entity texts, and NER labels drawn from a real tag set (in particular none
that lowercases to the internal accumulator keys `datetime`/`object_name`,
which no NER tag set contains). -/
def wellFormedDoc (d : Doc) : Prop :=
  (∀ t ∈ d.tokens, goodTokenText t) ∧
  (∀ e ∈ d.ents, e.text ≠ "") ∧
  (∀ e ∈ d.ents, e.label.toLower ≠ "datetime" ∧ e.label.toLower ≠ "object_name")

/-- A stored entity value that is neither an empty string nor an empty list,
and whose list elements are all nonempty (the auxiliary strengthening needed
to push the invariant through the joins). -/
def GoodVal : EVal → Prop
  | .s str => str ≠ ""
  | .l xs => xs ≠ [] ∧ ∀ x ∈ xs, x ≠ ""

/-- Every value in the bag is good. -/
def GoodBag (bag : EntityBag) : Prop := ∀ p ∈ bag, GoodVal p.2

/-- The keys the NER loop appends to always hold lists, never plain strings
(so the Python `append` on them cannot raise). -/
def ListKeysInv (bag : EntityBag) : Prop :=
  ∀ p ∈ bag, (p.1 = "datetime" ∨ p.1 = "person" ∨ p.1 = "object_name") →
    ∃ xs, p.2 = EVal.l xs

/-- A bare token with every flag off, used to build concrete test tokens. -/
def baseTok : Token :=
  { text := "", lemma_ := "", pos_ := "", is_title := false, is_punct := false,
    is_stop := false, like_num := false, like_email := false }

/-- Tokenization of "nmap scan on 192.168.1.1" (spaCy keeps the dotted quad
as one non-number-like token; "on" is a stopword preposition). -/
def docNmap : Doc :=
  { tokens :=
      [ { baseTok with text := "nmap", lemma_ := "nmap", pos_ := "NOUN" },
        { baseTok with text := "scan", lemma_ := "scan", pos_ := "NOUN" },
        { baseTok with text := "on", lemma_ := "on", pos_ := "ADP", is_stop := true },
        { baseTok with text := "192.168.1.1", lemma_ := "192.168.1.1", pos_ := "NUM" } ],
    ents := [] }

/-- Tokenization of "whois google.com" (the domain stays one token). -/
def docWhois : Doc :=
  { tokens :=
      [ { baseTok with text := "whois", lemma_ := "whois", pos_ := "NOUN" },
        { baseTok with text := "google.com", lemma_ := "google.com", pos_ := "NOUN" } ],
    ents := [] }

/-- Tokenization of "search for best pizza recipe". -/
def docSearch : Doc :=
  { tokens :=
      [ { baseTok with text := "search", lemma_ := "search", pos_ := "VERB" },
        { baseTok with text := "for", lemma_ := "for", pos_ := "ADP", is_stop := true },
        { baseTok with text := "best", lemma_ := "good", pos_ := "ADJ" },
        { baseTok with text := "pizza", lemma_ := "pizza", pos_ := "NOUN" },
        { baseTok with text := "recipe", lemma_ := "recipe", pos_ := "NOUN" } ],
    ents := [] }

/-- Tokenization of "find open": lemma `open` present, but the trigger is the
last token, so rule 4's positional check fails while rule 5's lemma `find` is
present. -/
def docFindOpen : List Token :=
  [ { baseTok with text := "find", lemma_ := "find", pos_ := "VERB" },
    { baseTok with text := "open", lemma_ := "open", pos_ := "VERB" } ]

/-- A benign concrete environment for closed counterexamples and witnesses. -/
def envDefault : Env :=
  { osName := "posix",
    nowFormatted := "Monday, January 01, 2024 at 12:00 PM",
    quotePlus := fun v =>
      match v with
      | .s str => .ok str
      | .l _ => .error (.generic "TypeError: quote_plus expects a string"),
    calendarSchedule := fun _ _ => .ok (true, "Event scheduled."),
    emailSend := fun _ _ _ => .ok (true, "Email sent."),
    startfile := fun _ => .ok (),
    httpGet := fun _ => .ok ⟨"", "", "", "", "", "", "", []⟩,
    whoisLookup := fun _ => .ok [("domain_name", "EXAMPLE.COM")],
    subprocessRun := fun _ _ => .ok ⟨0, "scan output", ""⟩ }

/-- An environment whose calendar collaborator raises. -/
def envCalendarRaise : Env :=
  { envDefault with calendarSchedule := fun _ _ => .error (.generic "boom") }

/-- An environment whose process-execution collaborator times out. -/
def envNmapTimeout : Env :=
  { envDefault with
      subprocessRun := fun _ _ => .error (.timeoutExpired "Command timed out") }

/-- Concrete entities carrying a target address. -/
def entsTarget : EntityBag := [("target_address", EVal.s "10.0.0.5")]

/-! ## Helper lemmas -/

theorem str_ne_empty_iff (s : String) : s ≠ "" ↔ s.data ≠ [] := by
  constructor
  · intro h hd
    exact h (by cases s; simp_all)
  · intro h hd
    exact h (by rw [hd])

theorem append_ne_empty_left (a b : String) (ha : a ≠ "") : a ++ b ≠ "" := by
  rw [str_ne_empty_iff] at ha ⊢
  rw [String.data_append]
  simp [ha]

/-- The drop-suffix characterization of the bounded FIFO fold. -/
theorem add_short_term_fold (limit : Nat) (turns : List ConversationTurn) :
    turns.foldl (add_short_term limit) [] = turns.drop (turns.length - limit) := by
  induction turns using List.reverseRecOn with
  | nil => simp
  | append_singleton ts t ih =>
    rw [List.foldl_append, List.foldl_cons, List.foldl_nil, ih]
    unfold add_short_term
    simp only [List.length_append, List.length_drop, List.length_singleton]
    by_cases hle : ts.length + 1 ≤ limit
    · rw [if_neg (by omega)]
      have h0 : ts.length - limit = 0 := by omega
      have h1 : ts.length + 1 - limit = 0 := by omega
      rw [h0, h1]
      simp
    · push_neg at hle
      rw [if_pos (by omega)]
      by_cases hlim : limit = 0
      · subst hlim
        simp only [Nat.sub_zero]
        rw [List.drop_length, List.drop_eq_nil_of_le (by simp)]
        rfl
      · have hlt : limit ≤ ts.length := by omega
        rw [List.drop_append_of_le_length (by omega)]
        have hne : ts.drop (ts.length - limit) ≠ [] := by
          intro hnil
          have := congrArg List.length hnil
          simp only [List.length_drop, List.length_nil] at this
          omega
        rw [List.tail_append_of_ne_nil hne, List.tail_drop]
        have : ts.length + 1 - limit = ts.length - limit + 1 := by omega
        rw [this]

/-! ## Claim theorems -/

/-- C10: an input mapping with no `intent` key is dispatched with the default
intent `unknown` (and entities defaulted to an empty bag), producing exactly
the fixed apology string with no collaborator call recorded. -/
theorem claim_C10 (env : Env) (ents : Option EntityBag) :
    execute_task env ⟨none, ents⟩ =
      ("Sorry, I didn't understand that request.", []) := rfl

/-- C9: starting from an empty short-term memory, folding `add_short_term`
over any arrival sequence leaves exactly the last `limit` turns in arrival
order (the front turn is the one evicted), so the length never exceeds the
limit after any call. -/
theorem claim_C9 (limit : Nat) (turns : List ConversationTurn) :
    turns.foldl (add_short_term limit) [] = turns.drop (turns.length - limit) ∧
    (turns.foldl (add_short_term limit) []).length ≤ limit := by
  refine ⟨add_short_term_fold limit turns, ?_⟩
  rw [add_short_term_fold]
  simp only [List.length_drop]
  omega

theorem execute_task_of_inner_error (env : Env) (r : NLUResult) (calls : List Call)
    (e : PyExc)
    (h : executeInner env (r.intent.getD "unknown") (r.entities.getD []) = (calls, .error e)) :
    execute_task env r = (criticalMsg (r.intent.getD "unknown"), calls) := by
  show (match executeInner env (r.intent.getD "unknown") (r.entities.getD []) with
    | (calls, .ok str) => (str, calls)
    | (calls, .error _) => (criticalMsg (r.intent.getD "unknown"), calls)) = _
  rw [h]

theorem execute_task_of_inner_ok (env : Env) (r : NLUResult) (calls : List Call)
    (s : String)
    (h : executeInner env (r.intent.getD "unknown") (r.entities.getD []) = (calls, .ok s)) :
    execute_task env r = (s, calls) := by
  show (match executeInner env (r.intent.getD "unknown") (r.entities.getD []) with
    | (calls, .ok str) => (str, calls)
    | (calls, .error _) => (criticalMsg (r.intent.getD "unknown"), calls)) = _
  rw [h]

/-- C3: whatever the collaborators do (any of them may raise any exception),
`execute_task` returns a result string: an escaped exception becomes the
generic failure string naming the intent, and an ordinary result is passed
through; in both cases the caller receives a string, never an exception. -/
theorem claim_C3 (env : Env) (r : NLUResult) :
    (∀ e, (executeInner env (r.intent.getD "unknown") (r.entities.getD [])).2 = .error e →
      execute_task env r =
        ("An unexpected critical error occurred while processing your request for '" ++
            r.intent.getD "unknown" ++ "'.",
          (executeInner env (r.intent.getD "unknown") (r.entities.getD [])).1)) ∧
    (∀ s, (executeInner env (r.intent.getD "unknown") (r.entities.getD [])).2 = .ok s →
      execute_task env r =
        (s, (executeInner env (r.intent.getD "unknown") (r.entities.getD [])).1)) := by
  constructor
  · intro e he
    rcases hE : executeInner env (r.intent.getD "unknown") (r.entities.getD []) with ⟨calls, res⟩
    rw [hE] at he
    simp only at he
    subst he
    exact execute_task_of_inner_error env r calls e hE
  · intro s hs
    rcases hE : executeInner env (r.intent.getD "unknown") (r.entities.getD []) with ⟨calls, res⟩
    rw [hE] at hs
    simp only at hs
    subst hs
    exact execute_task_of_inner_ok env r calls s hE

theorem claim_C3_witness :
    execute_task envCalendarRaise ⟨some "schedule_meeting", some []⟩ =
      ("An unexpected critical error occurred while processing your request for 'schedule_meeting'.",
        [Call.calendar "Meeting with Someone" (EVal.s "an unspecified time")]) := by
  have h := (claim_C3 envCalendarRaise ⟨some "schedule_meeting", some []⟩).1
    (.generic "boom") (by decide)
  rw [h]
  decide

/-- C2 counterexample: the NLU catch-all label `unknown_intent` does not get
the apology; it falls into the "recognized but not implemented" branch,
because the dispatcher's apology branch tests the literal `unknown`. -/
theorem claim_C2_counterexample :
    execute_task envDefault ⟨some "unknown_intent", some []⟩ =
      ("Action Required: Intent 'unknown_intent' is recognized but not implemented in the task executor yet.",
        []) ∧
    ("Action Required: Intent 'unknown_intent' is recognized but not implemented in the task executor yet."
      : String) ≠ "Sorry, I didn't understand that request." := by
  constructor
  · rfl
  · decide

/-- C2 (amended): the fixed apology is returned exactly for the literal
intent `unknown` (the dispatcher's default for a missing intent key), while
`unknown_intent` — like every intent outside the handled set — yields the
"recognized but not implemented" message naming it, without erroring and
without any collaborator call. -/
theorem claim_C2 (env : Env) (ents : Option EntityBag) (i : String)
    (h : i ∉ (["schedule_meeting", "send_email", "send_message", "open_application",
      "get_current_datetime", "search_web", "run_whois", "run_nmap", "unknown"] :
        List String)) :
    execute_task env ⟨some i, ents⟩ =
      ("Action Required: Intent '" ++ i ++
        "' is recognized but not implemented in the task executor yet.", []) ∧
    execute_task env ⟨some "unknown", ents⟩ =
      ("Sorry, I didn't understand that request.", []) := by
  simp only [List.mem_cons, List.not_mem_nil, or_false, not_or] at h
  obtain ⟨h1, h2, h3, h4, h5, h6, h7, h8, h9⟩ := h
  refine ⟨?_, rfl⟩
  show (match executeInner env i (ents.getD []) with
    | (calls, .ok str) => (str, calls)
    | (calls, .error _) => (criticalMsg i, calls)) = _
  unfold executeInner
  simp [h1, h2, h3, h4, h5, h6, h7, h8, h9]

theorem claim_C2_witness :
    (("unknown_intent" : String) ∉ (["schedule_meeting", "send_email", "send_message",
      "open_application", "get_current_datetime", "search_web", "run_whois", "run_nmap",
      "unknown"] : List String)) ∧
    execute_task envDefault ⟨some "unknown_intent", some []⟩ =
      ("Action Required: Intent 'unknown_intent' is recognized but not implemented in the task executor yet.",
        []) ∧
    execute_task envDefault ⟨some "unknown", some []⟩ =
      ("Sorry, I didn't understand that request.", []) := by
  refine ⟨by decide, ?_, ?_⟩
  · exact ((claim_C2 envDefault (some []) "unknown_intent" (by decide)).1).trans (by decide)
  · exact (claim_C2 envDefault (some []) "unknown_intent" (by decide)).2

/-- C4: for each intent with a required entity, a missing entity produces the
immediate descriptive error string with an empty collaborator call trace
(no process execution, WHOIS lookup, HTTP search, or email send attempted). -/
theorem claim_C4 (env : Env) (ents : EntityBag) :
    (dictGet ents "target_address" = none →
      execute_task env ⟨some "run_nmap", some ents⟩ =
        ("Error: No target address (domain or IP) specified for Nmap scan.", [])) ∧
    (dictGet ents "target_address" = none →
      execute_task env ⟨some "run_whois", some ents⟩ =
        ("Error: No target address (domain or IP) specified for WHOIS lookup.", [])) ∧
    (dictGet ents "search_query" = none →
      execute_task env ⟨some "search_web", some ents⟩ =
        ("Error: No search query specified.", [])) ∧
    (dictGet ents "email_address" = none → dictGet ents "person" = none →
      execute_task env ⟨some "send_email", some ents⟩ =
        ("Error: Could not determine recipient for email.", [])) := by
  refine ⟨fun h => ?_, fun h => ?_, fun h => ?_, fun he hp => ?_⟩
  · show (match runNmapBranch env ents with
      | (calls, .ok str) => (str, calls)
      | (calls, .error _) => (criticalMsg "run_nmap", calls)) = _
    unfold runNmapBranch
    rw [h]
  · show (match runWhoisBranch env ents with
      | (calls, .ok str) => (str, calls)
      | (calls, .error _) => (criticalMsg "run_whois", calls)) = _
    unfold runWhoisBranch
    rw [h]
  · show (match searchWebBranch env ents with
      | (calls, .ok str) => (str, calls)
      | (calls, .error _) => (criticalMsg "search_web", calls)) = _
    unfold searchWebBranch
    rw [h]
  · show (match sendEmailBranch env ents with
      | (calls, .ok str) => (str, calls)
      | (calls, .error _) => (criticalMsg "send_email", calls)) = _
    unfold sendEmailBranch
    rw [hp, he]

theorem claim_C4_witness :
    execute_task envDefault ⟨some "run_nmap", some []⟩ =
      ("Error: No target address (domain or IP) specified for Nmap scan.", []) ∧
    execute_task envDefault ⟨some "run_whois", some []⟩ =
      ("Error: No target address (domain or IP) specified for WHOIS lookup.", []) ∧
    execute_task envDefault ⟨some "search_web", some []⟩ =
      ("Error: No search query specified.", []) ∧
    execute_task envDefault ⟨some "send_email", some []⟩ =
      ("Error: Could not determine recipient for email.", []) :=
  ⟨(claim_C4 envDefault []).1 rfl, (claim_C4 envDefault []).2.1 rfl,
    (claim_C4 envDefault []).2.2.1 rfl, (claim_C4 envDefault []).2.2.2 rfl rfl⟩

theorem take_data_append (lit rest : List Char) (n : Nat) (h : n ≤ lit.length) :
    (lit ++ rest).take n = lit.take n := List.take_append_of_le_length h

theorem nmapFail_ne_notFound (t em : String) : nmapFailMsg t em ≠ nmapNotFoundMsg := by
  intro h
  have h6 := congrArg (fun s => s.data.take 6) h
  simp only [nmapFailMsg, nmapNotFoundMsg, String.data_append, List.append_assoc] at h6
  rw [take_data_append "Error running Nmap scan for ".data _ 6 (by decide)] at h6
  exact absurd h6 (by decide)

theorem nmapFail_ne_timeout (t em : String) : nmapFailMsg t em ≠ nmapTimeoutMsg t := by
  intro h
  have h6 := congrArg (fun s => s.data.take 6) h
  simp only [nmapFailMsg, nmapTimeoutMsg, String.data_append, List.append_assoc] at h6
  rw [take_data_append "Error running Nmap scan for ".data _ 6 (by decide),
    take_data_append "Error: Nmap command for '".data _ 6 (by decide)] at h6
  exact absurd h6 (by decide)

theorem nmapFail_ne_unexpected (t em m : String) :
    nmapFailMsg t em ≠ nmapUnexpectedMsg t m := by
  intro h
  have h6 := congrArg (fun s => s.data.take 6) h
  simp only [nmapFailMsg, nmapUnexpectedMsg, String.data_append, List.append_assoc] at h6
  rw [take_data_append "Error running Nmap scan for ".data _ 6 (by decide),
    take_data_append "Error: An unexpected error occurred during Nmap scan for '".data _ 6
      (by decide)] at h6
  exact absurd h6 (by decide)

theorem nmapNotFound_ne_timeout (t : String) : nmapNotFoundMsg ≠ nmapTimeoutMsg t := by
  intro h
  have h8 := congrArg (fun s => s.data.take 8) h
  simp only [nmapNotFoundMsg, nmapTimeoutMsg, String.data_append, List.append_assoc] at h8
  rw [take_data_append "Error: Nmap command for '".data _ 8 (by decide)] at h8
  exact absurd h8 (by decide)

theorem nmapNotFound_ne_unexpected (t m : String) :
    nmapNotFoundMsg ≠ nmapUnexpectedMsg t m := by
  intro h
  have h8 := congrArg (fun s => s.data.take 8) h
  simp only [nmapNotFoundMsg, nmapUnexpectedMsg, String.data_append, List.append_assoc] at h8
  rw [take_data_append "Error: An unexpected error occurred during Nmap scan for '".data _ 8
    (by decide)] at h8
  exact absurd h8 (by decide)

theorem nmapTimeout_ne_unexpected (t m : String) :
    nmapTimeoutMsg t ≠ nmapUnexpectedMsg t m := by
  intro h
  have h8 := congrArg (fun s => s.data.take 8) h
  simp only [nmapTimeoutMsg, nmapUnexpectedMsg, String.data_append, List.append_assoc] at h8
  rw [take_data_append "Error: Nmap command for '".data _ 8 (by decide),
    take_data_append "Error: An unexpected error occurred during Nmap scan for '".data _ 8
      (by decide)] at h8
  exact absurd h8 (by decide)

theorem nmapTimeout_infix_timedout (t : String) :
    strInfix "timed out" (nmapTimeoutMsg t) := by
  refine ⟨("Error: Nmap command for '" ++ t ++ "' ").data, " after 120 seconds.".data, ?_⟩
  simp only [nmapTimeoutMsg, String.data_append, List.append_assoc]
  congr 1

theorem nmapTimeout_infix_target (t : String) : strInfix t (nmapTimeoutMsg t) := by
  refine ⟨"Error: Nmap command for '".data, "' timed out after 120 seconds.".data, ?_⟩
  simp only [nmapTimeoutMsg, String.data_append, List.append_assoc]

/-- C5: with a target present, `run_nmap` makes exactly one process call,
`['nmap', target]` with the fixed 120-second timeout, whatever the outcome;
a timeout yields the message containing the target and "timed out" (never an
exception); not-found, non-zero exit and generic failure get their own
messages, pairwise distinct; exit 0 returns stdout verbatim in the result. -/
theorem claim_C5 (env : Env) (t : String) (ents : EntityBag)
    (ht : dictGet ents "target_address" = some (EVal.s t)) (hne : t ≠ "") :
    (execute_task env ⟨some "run_nmap", some ents⟩).2 =
      [Call.subproc [EVal.s "nmap", EVal.s t] 120] ∧
    (∀ cp, env.subprocessRun [EVal.s "nmap", EVal.s t] 120 = .ok cp →
      cp.returncode = 0 →
      (execute_task env ⟨some "run_nmap", some ents⟩).1 = nmapSuccessMsg t cp.stdout) ∧
    (∀ cp, env.subprocessRun [EVal.s "nmap", EVal.s t] 120 = .ok cp →
      cp.returncode ≠ 0 →
      (execute_task env ⟨some "run_nmap", some ents⟩).1 =
        nmapFailMsg t (if cp.stderr != "" then cp.stderr
          else nmapRcFallback cp.returncode)) ∧
    (∀ m, env.subprocessRun [EVal.s "nmap", EVal.s t] 120 = .error (.fileNotFound m) →
      (execute_task env ⟨some "run_nmap", some ents⟩).1 = nmapNotFoundMsg) ∧
    (∀ m, env.subprocessRun [EVal.s "nmap", EVal.s t] 120 = .error (.timeoutExpired m) →
      (execute_task env ⟨some "run_nmap", some ents⟩).1 = nmapTimeoutMsg t) ∧
    strInfix "timed out" (nmapTimeoutMsg t) ∧
    strInfix t (nmapTimeoutMsg t) ∧
    (∀ e, (∀ m, e ≠ .fileNotFound m) → (∀ m, e ≠ .timeoutExpired m) →
      env.subprocessRun [EVal.s "nmap", EVal.s t] 120 = .error e →
      (execute_task env ⟨some "run_nmap", some ents⟩).1 = nmapUnexpectedMsg t e.msg) ∧
    ((∀ em, nmapFailMsg t em ≠ nmapNotFoundMsg) ∧
      (∀ em, nmapFailMsg t em ≠ nmapTimeoutMsg t) ∧
      (∀ em m, nmapFailMsg t em ≠ nmapUnexpectedMsg t m) ∧
      nmapNotFoundMsg ≠ nmapTimeoutMsg t ∧
      (∀ m, nmapNotFoundMsg ≠ nmapUnexpectedMsg t m) ∧
      (∀ m, nmapTimeoutMsg t ≠ nmapUnexpectedMsg t m)) := by
  have htr : truthy (EVal.s t) = true := by
    simp [truthy, bne_iff_ne]
    exact hne
  refine ⟨?_, ?_, ?_, ?_, ?_, nmapTimeout_infix_timedout t, nmapTimeout_infix_target t,
    ?_, fun em => nmapFail_ne_notFound t em, fun em => nmapFail_ne_timeout t em,
    fun em m => nmapFail_ne_unexpected t em m, nmapNotFound_ne_timeout t,
    fun m => nmapNotFound_ne_unexpected t m, fun m => nmapTimeout_ne_unexpected t m⟩
  · rcases hrun : env.subprocessRun [EVal.s "nmap", EVal.s t] 120 with e | cp
    · show ((match runNmapBranch env ents with
        | (calls, .ok str) => (str, calls)
        | (calls, .error _) => (criticalMsg "run_nmap", calls)).2) = _
      simp only [runNmapBranch, ht, htr, if_true, hrun]
      cases e <;> rfl
    · show ((match runNmapBranch env ents with
        | (calls, .ok str) => (str, calls)
        | (calls, .error _) => (criticalMsg "run_nmap", calls)).2) = _
      simp only [runNmapBranch, ht, htr, if_true, hrun]
      by_cases hrc : (cp.returncode == 0) = true <;> simp [hrc]
  · intro cp hcp hrc
    show ((match runNmapBranch env ents with
      | (calls, .ok str) => (str, calls)
      | (calls, .error _) => (criticalMsg "run_nmap", calls)).1) = _
    simp [runNmapBranch, ht, htr, hcp, hrc, nmapSuccessMsg, pyStr]
  · intro cp hcp hrc
    have hbeq : (cp.returncode == 0) = false := beq_eq_false_iff_ne.mpr hrc
    show ((match runNmapBranch env ents with
      | (calls, .ok str) => (str, calls)
      | (calls, .error _) => (criticalMsg "run_nmap", calls)).1) = _
    simp [runNmapBranch, ht, htr, hcp, hbeq, nmapFailMsg, nmapRcFallback, pyStr]
  · intro m hm
    show ((match runNmapBranch env ents with
      | (calls, .ok str) => (str, calls)
      | (calls, .error _) => (criticalMsg "run_nmap", calls)).1) = _
    simp [runNmapBranch, ht, htr, hm, nmapNotFoundMsg]
  · intro m hm
    show ((match runNmapBranch env ents with
      | (calls, .ok str) => (str, calls)
      | (calls, .error _) => (criticalMsg "run_nmap", calls)).1) = _
    simp [runNmapBranch, ht, htr, hm, nmapTimeoutMsg, pyStr]
  · intro e hfn hto hrun
    show ((match runNmapBranch env ents with
      | (calls, .ok str) => (str, calls)
      | (calls, .error _) => (criticalMsg "run_nmap", calls)).1) = _
    cases e with
    | fileNotFound m => exact absurd rfl (hfn m)
    | timeoutExpired m => exact absurd rfl (hto m)
    | osError m => simp [runNmapBranch, ht, htr, hrun, nmapUnexpectedMsg, PyExc.msg, pyStr]
    | pywhoisError m => simp [runNmapBranch, ht, htr, hrun, nmapUnexpectedMsg, PyExc.msg, pyStr]
    | requestError m => simp [runNmapBranch, ht, htr, hrun, nmapUnexpectedMsg, PyExc.msg, pyStr]
    | indexError m => simp [runNmapBranch, ht, htr, hrun, nmapUnexpectedMsg, PyExc.msg, pyStr]
    | attributeError m => simp [runNmapBranch, ht, htr, hrun, nmapUnexpectedMsg, PyExc.msg, pyStr]
    | generic m => simp [runNmapBranch, ht, htr, hrun, nmapUnexpectedMsg, PyExc.msg, pyStr]

theorem claim_C5_witness :
    dictGet entsTarget "target_address" = some (EVal.s "10.0.0.5") ∧
    ("10.0.0.5" : String) ≠ "" ∧
    execute_task envNmapTimeout ⟨some "run_nmap", some entsTarget⟩ =
      ("Error: Nmap command for '10.0.0.5' timed out after 120 seconds.",
        [Call.subproc [EVal.s "nmap", EVal.s "10.0.0.5"] 120]) := by
  have h := claim_C5 envNmapTimeout "10.0.0.5" entsTarget rfl (by decide)
  refine ⟨rfl, by decide, ?_⟩
  have h1 := h.1
  have h5 := h.2.2.2.2.1 "Command timed out" rfl
  exact Prod.ext (h5.trans (by decide)) (h1.trans rfl)

/-- C1 counterexample: on "find open" the rule-4 lemma test succeeds but its
positional check fails; the source classifier returns `unknown_intent`
without evaluating rule 5, while the spec's first-match table returns
`search_web` (lemma `find` is present). -/
theorem claim_C1_counterexample :
    recognize_intent docFindOpen = "unknown_intent" ∧
    classifySpec docFindOpen = "search_web" := by
  constructor
  · decide
  · decide

/-- C1 (amended): classification agrees with first-match evaluation of the
section-4.2 table except in the rule-4 short-circuit: when rules 1–3 fail,
an `open`/`launch`/`start` lemma is present and the positional check fails,
the classifier returns `unknown_intent` without evaluating rules 5–12. -/
theorem claim_C1 (toks : List Token) :
    (openShortCircuit toks = false → recognize_intent toks = classifySpec toks) ∧
    (openShortCircuit toks = true → recognize_intent toks = "unknown_intent") := by
  unfold openShortCircuit recognize_intent classifySpec specRules
  by_cases h1 : (hasLemma toks "meeting" &&
      anyLemma toks ["schedule", "book", "set up", "arrange"]) = true
  · simp [h1, List.find?]
  · simp only [Bool.not_eq_true] at h1
    by_cases h2 : (anyLemma toks ["email", "mail"] && hasLemma toks "send") = true
    · simp [h1, h2, List.find?]
    · simp only [Bool.not_eq_true] at h2
      by_cases h3 : (anyLemma toks ["message", "note"] && hasLemma toks "send") = true
      · simp [h1, h2, h3, List.find?]
      · simp only [Bool.not_eq_true] at h3
        by_cases h4 : (anyLemma toks ["open", "launch", "start"]) = true
        · by_cases hp : (openAppPositional toks) = true
          · simp [h1, h2, h3, h4, hp, List.find?]
          · simp only [Bool.not_eq_true] at hp
            simp [h1, h2, h3, h4, hp, List.find?]
        · simp only [Bool.not_eq_true] at h4
          by_cases h5 : (anyLemma toks ["search", "find", "look up", "google"]) = true
          · simp [h1, h2, h3, h4, h5, List.find?]
          · simp only [Bool.not_eq_true] at h5
            by_cases h6 : (anyLemma toks ["reminder", "remind"]) = true
            · simp [h1, h2, h3, h4, h5, h6, List.find?]
            · simp only [Bool.not_eq_true] at h6
              by_cases h7 : (anyLemma toks ["close", "exit", "quit"]) = true
              · simp [h1, h2, h3, h4, h5, h6, h7, List.find?]
              · simp only [Bool.not_eq_true] at h7
                by_cases h8 : (anyLemma toks ["date", "time", "day", "today"] &&
                    !(anyLemma toks ["schedule", "meeting", "reminder"])) = true
                · simp [h1, h2, h3, h4, h5, h6, h7, h8, List.find?]
                · simp only [Bool.not_eq_true] at h8
                  by_cases h9 : (anyLemma toks ["schedule", "book", "set up"]) = true
                  · simp [h1, h2, h3, h4, h5, h6, h7, h8, h9, List.find?]
                  · simp only [Bool.not_eq_true] at h9
                    by_cases h10 : (hasLemma toks "send") = true
                    · have hA : anyLemma toks ["email", "mail"] = false := by
                        cases hx : anyLemma toks ["email", "mail"] with
                        | true => rw [hx, h10] at h2; exact absurd h2 (by simp)
                        | false => rfl
                      have hB : anyLemma toks ["message", "note"] = false := by
                        cases hx : anyLemma toks ["message", "note"] with
                        | true => rw [hx, h10] at h3; exact absurd h3 (by simp)
                        | false => rfl
                      simp [h1, h2, h3, h4, h5, h6, h7, h8, h9, h10, hA, hB, List.find?]
                    · simp only [Bool.not_eq_true] at h10
                      by_cases h11 : (hasLemma toks "nmap") = true
                      · simp [h1, h2, h3, h4, h5, h6, h7, h8, h9, h10, h11, List.find?]
                      · simp only [Bool.not_eq_true] at h11
                        by_cases h12 : (hasLemma toks "whois") = true
                        · simp [h1, h2, h3, h4, h5, h6, h7, h8, h9, h10, h11, h12,
                            List.find?]
                        · simp only [Bool.not_eq_true] at h12
                          simp [h1, h2, h3, h4, h5, h6, h7, h8, h9, h10, h11, h12,
                            List.find?]

theorem claim_C1_witness :
    openShortCircuit docFindOpen = true ∧
    recognize_intent docFindOpen = "unknown_intent" :=
  ⟨by decide, (claim_C1 docFindOpen).2 (by decide)⟩


theorem str_ext (s t : String) (h : s.data = t.data) : s = t := by
  cases s; cases t; exact congrArg String.mk h

theorem dictGet_dictSet_self (bag : EntityBag) (k : String) (v : EVal) :
    dictGet (dictSet bag k v) k = some v := by
  unfold dictGet dictSet
  split
  · next hany =>
    induction bag with
    | nil => simp at hany
    | cons p l ih =>
      simp only [List.any_cons, Bool.or_eq_true] at hany
      simp only [List.map_cons]
      by_cases hp : (p.1 == k) = true
      · rw [if_pos hp, List.find?_cons_of_pos _ (by simp)]
        rfl
      · rw [if_neg hp, List.find?_cons_of_neg _ (by simpa using hp)]
        rcases hany with hany | hany
        · exact absurd hany hp
        · exact ih hany
  · next hany =>
    induction bag with
    | nil => simp [List.find?]
    | cons p l ih =>
      rw [List.cons_append, List.find?_cons_of_neg, ih]
      · intro hc
        exact hany (by simp [List.any_cons, hc])
      · intro hc
        exact hany (by simp [List.any_cons, hc])

theorem find?_map_update_ne (l : List (String × EVal)) (k k' : String) (v : EVal)
    (h : ¬ k' = k) :
    List.find? (fun p => p.1 == k)
      (l.map (fun p => if (p.1 == k') = true then (k', v) else p)) =
    List.find? (fun p => p.1 == k) l := by
  induction l with
  | nil => rfl
  | cons p l ih =>
    simp only [List.map_cons]
    by_cases hp : (p.1 == k') = true
    · rw [if_pos hp]
      have h1 : (k' == k) = false := beq_eq_false_iff_ne.mpr h
      have h2 : (p.1 == k) = false := by
        rw [(by simpa using hp : p.1 = k')]
        exact h1
      simp only [List.find?, h1, h2]
      exact ih
    · rw [if_neg hp]
      simp only [List.find?]
      by_cases hpk : (p.1 == k) = true
      · simp only [hpk]
      · simp only [Bool.not_eq_true] at hpk
        simp only [hpk]
        exact ih

theorem find?_append_single_ne (l : List (String × EVal)) (k k' : String) (v : EVal)
    (h : ¬ k' = k) :
    List.find? (fun p => p.1 == k) (l ++ [(k', v)]) =
    List.find? (fun p => p.1 == k) l := by
  induction l with
  | nil =>
    have h1 : (k' == k) = false := beq_eq_false_iff_ne.mpr h
    simp only [List.nil_append, List.find?]
    simp [h1]
  | cons p l ih =>
    rw [List.cons_append]
    simp only [List.find?]
    by_cases hpk : (p.1 == k) = true
    · simp only [hpk]
    · simp only [Bool.not_eq_true] at hpk
      simp only [hpk]
      exact ih

theorem dictGet_dictSet_ne (bag : EntityBag) (k k' : String) (v : EVal) (h : k ≠ k') :
    dictGet (dictSet bag k' v) k = dictGet bag k := by
  have hne : ¬ k' = k := fun hh => h hh.symm
  unfold dictGet dictSet
  split
  · rw [find?_map_update_ne bag k k' v hne]
  · rw [find?_append_single_ne bag k k' v hne]

theorem mem_dictSet (bag : EntityBag) (k : String) (v : EVal) (p : String × EVal)
    (hp : p ∈ dictSet bag k v) : p ∈ bag ∨ p = (k, v) := by
  unfold dictSet at hp
  split at hp
  · obtain ⟨q, hq, hfq⟩ := List.mem_map.mp hp
    by_cases h : (q.1 == k) = true
    · right
      rw [if_pos h] at hfq
      exact hfq.symm
    · left
      rw [if_neg h] at hfq
      exact hfq ▸ hq
  · rcases List.mem_append.mp hp with h | h
    · exact Or.inl h
    · right
      simpa using h

theorem mem_of_dictGet (bag : EntityBag) (k : String) (v : EVal)
    (h : dictGet bag k = some v) : (k, v) ∈ bag := by
  unfold dictGet at h
  obtain ⟨p, hfind, hmap⟩ := Option.map_eq_some'.mp h
  have hmem := List.mem_of_find?_eq_some hfind
  have hpred : p.1 = k := by simpa using List.find?_some hfind
  have hpv : p = (k, v) := by
    cases p
    simp only at hpred hmap
    rw [hpred, hmap]
  exact hpv ▸ hmem

theorem eq_dot_of_contains (s : String) (hc : s.data.contains '.' = true)
    (hl : s.data.length ≤ 1) : s = "." := by
  have hmem : '.' ∈ s.data := by simpa using hc
  have hne : s.data ≠ [] := List.ne_nil_of_mem hmem
  have h1 : s.data.length = 1 := by
    have : 0 < s.data.length := List.length_pos.mpr hne
    omega
  obtain ⟨a, ha⟩ := List.length_eq_one.mp h1
  rw [ha] at hmem
  have haa : '.' = a := by simpa using hmem
  apply str_ext
  rw [ha, ← haa]

/-- Under the well-formedness condition that a token whose stripped text is a
bare "." is punctuation, the source's target scan coincides with the spec's
description of it (the source's extra length/count checks are redundant). -/
theorem targetScan_eq_spec (l : List Token)
    (hdots : ∀ t ∈ l, pyStrip t.text = "." → t.is_punct = true) :
    targetScan l = specTargetScan l := by
  induction l with
  | nil => rfl
  | cons t rest ih =>
    have hdr : ∀ t' ∈ rest, pyStrip t'.text = "." → t'.is_punct = true :=
      fun t' ht' => hdots t' (List.mem_cons_of_mem _ ht')
    simp only [targetScan, specTargetScan]
    by_cases hskip : targetSkip t = true
    · rw [if_pos hskip, if_pos hskip]
      exact ih hdr
    · rw [if_neg hskip, if_neg hskip]
      by_cases hip : isIpQuad (pyStrip t.text) = true
      · rw [if_pos hip, if_pos hip]
      · rw [if_neg hip, if_neg hip]
        have hcond : domainCheck t (pyStrip t.text) =
            (strHasChar (pyStrip t.text) '.' && !(specPurelyNumeric t (pyStrip t.text))) := by
          by_cases hhc : strHasChar (pyStrip t.text) '.' = true
          · by_cases hln : t.like_num = true
            · simp [domainCheck, specPurelyNumeric, hhc, hln]
            · simp only [Bool.not_eq_true] at hln
              by_cases hdig : isDigitsPy (removeDots (pyStrip t.text)) = true
              · simp [domainCheck, specPurelyNumeric, hhc, hln, hdig]
              · simp only [Bool.not_eq_true] at hdig
                have hskip' : targetSkip t = false := by simpa using hskip
                have hpunct : t.is_punct = false := by
                  unfold targetSkip at hskip'
                  rcases Bool.or_eq_false_iff.mp hskip' with ⟨h1, _⟩
                  exact (Bool.or_eq_false_iff.mp h1).1
                have hmem : '.' ∈ (pyStrip t.text).data := by
                  simpa [strHasChar] using hhc
                have hlen : (pyStrip t.text).length > 1 := by
                  by_contra hle
                  push_neg at hle
                  have hdot : pyStrip t.text = "." :=
                    eq_dot_of_contains _ (by simpa using hmem) hle
                  have hpp := hdots t (List.mem_cons_self t rest) hdot
                  rw [hpunct] at hpp
                  exact Bool.false_ne_true hpp
                have hcount : 1 ≤ (pyStrip t.text).data.count '.' := by
                  have h0 : 0 < (pyStrip t.text).data.count '.' :=
                    List.count_pos_iff.mpr hmem
                  omega
                simp [domainCheck, specPurelyNumeric, hhc, hln, hdig, hlen, hcount]
          · simp only [Bool.not_eq_true] at hhc
            simp [domainCheck, specPurelyNumeric, hhc]
        rw [hcond]
        by_cases hc : (strHasChar (pyStrip t.text) '.' &&
            !(specPurelyNumeric t (pyStrip t.text))) = true
        · rw [if_pos hc, if_pos hc]
        · rw [if_neg hc, if_neg hc]
          exact ih hdr

theorem mem_of_nmapTriggerRest (toks rest : List Token)
    (h : nmapTriggerRest toks = some rest) : ∀ t ∈ rest, t ∈ toks := by
  induction toks with
  | nil => simp [nmapTriggerRest] at h
  | cons t0 ts ih =>
    unfold nmapTriggerRest at h
    by_cases hc : (["nmap", "whois"].contains t0.lemma_) = true
    · rw [if_pos hc] at h
      injection h with h
      subst h
      intro t ht
      exact List.mem_cons_of_mem _ ht
    · rw [if_neg hc] at h
      intro t ht
      exact List.mem_cons_of_mem _ (ih h t ht)

theorem targetPhase_spec (intent : String) (toks : List Token) (bag : EntityBag)
    (hi : intent = "run_nmap" ∨ intent = "run_whois")
    (hno : dictGet bag "target_address" = none)
    (hdots : ∀ t ∈ toks, pyStrip t.text = "." → t.is_punct = true) :
    dictGet (targetPhase intent toks bag) "target_address" =
      (specTargetAddress toks).map EVal.s := by
  have hcases : ∀ rest, nmapTriggerRest toks = some rest →
      targetScan rest = specTargetScan rest := fun rest htrig =>
    targetScan_eq_spec rest
      (fun t ht hd => hdots t (mem_of_nmapTriggerRest toks rest htrig t ht) hd)
  rcases hi with hi | hi
  · subst hi
    unfold targetPhase specTargetAddress
    rw [hno, if_pos (by decide)]
    cases htrig : nmapTriggerRest toks with
    | none => simp [hno]
    | some rest =>
      dsimp only
      rw [hcases rest htrig]
      cases hscan : specTargetScan rest with
      | none => simp [hno]
      | some tgt => simp [dictGet_dictSet_self]
  · subst hi
    unfold targetPhase specTargetAddress
    rw [hno, if_pos (by decide)]
    cases htrig : nmapTriggerRest toks with
    | none => simp [hno]
    | some rest =>
      dsimp only
      rw [hcases rest htrig]
      cases hscan : specTargetScan rest with
      | none => simp [hno]
      | some tgt => simp [dictGet_dictSet_self]

/-- C6: for an utterance classified `run_nmap`/`run_whois` whose NER+email
phase produced no `target_address` (and whose bare-dot tokens are
punctuation), the extracted `target_address` is exactly the spec's scan:
first trigger lemma, skip punctuation/stopwords/`at`,`on`,`for`, first
IPv4-pattern or dotted non-numeric token, absent when nothing matches. -/
theorem claim_C6 (d : Doc) (b0 : EntityBag)
    (hner : nerEmailPhase d = .ok b0)
    (hi : recognize_intent d.tokens = "run_nmap" ∨
      recognize_intent d.tokens = "run_whois")
    (hno : dictGet b0 "target_address" = none)
    (hdots : ∀ t ∈ d.tokens, pyStrip t.text = "." → t.is_punct = true) :
    ∃ bag, extract_entities d = .ok bag ∧
      dictGet bag "target_address" = (specTargetAddress d.tokens).map EVal.s := by
  rcases hi with hi | hi
  · have hx : extract_entities d = .ok (targetPhase "run_nmap" d.tokens b0) := by
      unfold extract_entities
      rw [hner, hi]
      rfl
    exact ⟨_, hx, targetPhase_spec "run_nmap" d.tokens b0 (Or.inl rfl) hno hdots⟩
  · have hx : extract_entities d = .ok (targetPhase "run_whois" d.tokens b0) := by
      unfold extract_entities
      rw [hner, hi]
      rfl
    exact ⟨_, hx, targetPhase_spec "run_whois" d.tokens b0 (Or.inr rfl) hno hdots⟩

theorem claim_C6_witness :
    recognize_intent docNmap.tokens = "run_nmap" ∧
    (∃ bag, extract_entities docNmap = .ok bag ∧
      dictGet bag "target_address" = some (EVal.s "192.168.1.1")) ∧
    recognize_intent docWhois.tokens = "run_whois" ∧
    (∃ bag, extract_entities docWhois = .ok bag ∧
      dictGet bag "target_address" = some (EVal.s "google.com")) := by
  refine ⟨by decide, ?_, by decide, ?_⟩
  · obtain ⟨bag, h1, h2⟩ := claim_C6 docNmap [] rfl (Or.inl (by decide)) rfl (by decide)
    exact ⟨bag, h1, by rw [h2]; decide⟩
  · obtain ⟨bag, h1, h2⟩ := claim_C6 docWhois [] rfl (Or.inr (by decide)) rfl (by decide)
    exact ⟨bag, h1, by rw [h2]; decide⟩

/-- C7: for an utterance classified `search_web` whose NER+email phase
produced no `search_query`, the extracted query is: tokens after the first
trigger lemma, one immediately following preposition skipped, a leading
determiner/pronoun run skipped, joined with single spaces, trimmed; absent
when there is no trigger (or nothing remains). -/
theorem claim_C7 (d : Doc) (b0 : EntityBag)
    (hner : nerEmailPhase d = .ok b0)
    (hi : recognize_intent d.tokens = "search_web")
    (hno : dictGet b0 "search_query" = none) :
    ∃ bag, extract_entities d = .ok bag ∧
      dictGet bag "search_query" =
        (if (searchQueryParts d.tokens).isEmpty then none
          else some (EVal.s (pyStrip (joinSpace (searchQueryParts d.tokens))))) ∧
      (searchTriggerRest d.tokens = none → dictGet bag "search_query" = none) := by
  have hx : extract_entities d = .ok (searchPhase "search_web" d.tokens b0) := by
    unfold extract_entities
    rw [hner, hi]
    rfl
  have hval : dictGet (searchPhase "search_web" d.tokens b0) "search_query" =
      (if (searchQueryParts d.tokens).isEmpty then none
        else some (EVal.s (pyStrip (joinSpace (searchQueryParts d.tokens))))) := by
    simp only [searchPhase]
    rw [if_pos (show (("search_web" == "search_web") = true) by decide)]
    by_cases hq : (searchQueryParts d.tokens).isEmpty = true
    · rw [if_neg (by simp [hq]), if_pos hq]
      exact hno
    · simp only [Bool.not_eq_true] at hq
      rw [if_pos (by simp [hq]), if_neg (by simp [hq])]
      exact dictGet_dictSet_self b0 "search_query" _
  refine ⟨_, hx, hval, ?_⟩
  intro htrig
  have hparts : searchQueryParts d.tokens = [] := by
    unfold searchQueryParts
    rw [htrig]
  rw [hval, hparts]
  simp

theorem claim_C7_witness :
    recognize_intent docSearch.tokens = "search_web" ∧
    (∃ bag, extract_entities docSearch = .ok bag ∧
      dictGet bag "search_query" = some (EVal.s "best pizza recipe")) := by
  refine ⟨by decide, ?_⟩
  obtain ⟨bag, h1, h2, _⟩ := claim_C7 docSearch [] rfl (by decide) rfl
  exact ⟨bag, h1, by rw [h2]; decide⟩

theorem goodVal_ne (v : EVal) (h : GoodVal v) : v ≠ EVal.s "" ∧ v ≠ EVal.l [] := by
  cases v with
  | s str => exact ⟨fun hh => h (EVal.s.inj hh), fun hh => EVal.noConfusion hh⟩
  | l xs => exact ⟨fun hh => EVal.noConfusion hh, fun hh => h.1 (EVal.l.inj hh)⟩

theorem goodBag_dictSet (bag : EntityBag) (k : String) (v : EVal)
    (hG : GoodBag bag) (hv : GoodVal v) : GoodBag (dictSet bag k v) := by
  intro p hp
  rcases mem_dictSet bag k v p hp with h | h
  · exact hG p h
  · rw [h]
    exact hv

theorem listKeysInv_dictSet_list (bag : EntityBag) (k : String) (xs : List String)
    (hb : ListKeysInv bag) : ListKeysInv (dictSet bag k (.l xs)) := by
  intro p hp hkey
  rcases mem_dictSet _ _ _ p hp with h | h
  · exact hb p h hkey
  · exact ⟨xs, by rw [h]⟩

theorem listKeysInv_dictSet_other (bag : EntityBag) (k : String) (v : EVal)
    (hk : k ≠ "datetime" ∧ k ≠ "person" ∧ k ≠ "object_name")
    (hb : ListKeysInv bag) : ListKeysInv (dictSet bag k v) := by
  intro p hp hkey
  rcases mem_dictSet _ _ _ p hp with h | h
  · exact hb p h hkey
  · subst h
    simp only at hkey
    rcases hkey with h1 | h1 | h1
    exacts [absurd h1 hk.1, absurd h1 hk.2.1, absurd h1 hk.2.2]

theorem dictAppend_ok (bag : EntityBag) (k t : String)
    (hk : k = "datetime" ∨ k = "person" ∨ k = "object_name")
    (hInv : ListKeysInv bag) (hG : GoodBag bag) (ht : t ≠ "") :
    ∃ bag', dictAppend bag k t = .ok bag' ∧ ListKeysInv bag' ∧ GoodBag bag' := by
  unfold dictAppend
  cases hget : dictGet bag k with
  | none =>
    refine ⟨_, rfl, listKeysInv_dictSet_list bag k [t] hInv,
      goodBag_dictSet _ _ _ hG ?_⟩
    refine ⟨by simp, fun x hx => ?_⟩
    rw [List.mem_singleton.mp hx]
    exact ht
  | some v =>
    cases v with
    | s str =>
      exfalso
      obtain ⟨xs, hxs⟩ := hInv (k, .s str) (mem_of_dictGet _ _ _ hget) hk
      exact EVal.noConfusion hxs
    | l xs =>
      have hxsG : GoodVal (.l xs) := hG _ (mem_of_dictGet _ _ _ hget)
      refine ⟨_, rfl, listKeysInv_dictSet_list bag k (xs ++ [t]) hInv,
        goodBag_dictSet _ _ _ hG ?_⟩
      refine ⟨by simp, fun x hx => ?_⟩
      rcases List.mem_append.mp hx with h | h
      · exact hxsG.2 x h
      · rw [List.mem_singleton.mp h]
        exact ht

theorem nerStep_ok (bag : EntityBag) (ent : Ent)
    (hInv : ListKeysInv bag) (hG : GoodBag bag)
    (hlab : ent.label.toLower ≠ "datetime" ∧ ent.label.toLower ≠ "object_name")
    (htext : ent.text ≠ "") :
    ∃ bag', nerStep bag ent = .ok bag' ∧ ListKeysInv bag' ∧ GoodBag bag' := by
  unfold nerStep
  by_cases h1 : (ent.label.toLower == "date" || ent.label.toLower == "time") = true
  · rw [if_pos h1]
    exact dictAppend_ok bag "datetime" ent.text (Or.inl rfl) hInv hG htext
  · rw [if_neg h1]
    by_cases h2 : (ent.label.toLower == "person") = true
    · rw [if_pos h2]
      exact dictAppend_ok bag "person" ent.text (Or.inr (Or.inl rfl)) hInv hG htext
    · rw [if_neg h2]
      by_cases h3 : (ent.label.toLower == "org" || ent.label.toLower == "product") = true
      · rw [if_pos h3]
        exact dictAppend_ok bag "object_name" ent.text (Or.inr (Or.inr rfl)) hInv hG htext
      · rw [if_neg h3]
        refine ⟨_, rfl, ?_, goodBag_dictSet _ _ _ hG htext⟩
        apply listKeysInv_dictSet_other _ _ _ ?_ hInv
        refine ⟨hlab.1, ?_, hlab.2⟩
        intro hp
        apply h2
        rw [hp]
        rfl

theorem nerFold_ok (ents : List Ent)
    (hents : ∀ e ∈ ents,
      (e.label.toLower ≠ "datetime" ∧ e.label.toLower ≠ "object_name") ∧ e.text ≠ "") :
    ∀ bag, ListKeysInv bag → GoodBag bag →
      ∃ bag', List.foldlM nerStep bag ents = .ok bag' ∧ ListKeysInv bag' ∧ GoodBag bag' := by
  induction ents with
  | nil =>
    intro bag hI hG
    exact ⟨bag, rfl, hI, hG⟩
  | cons e es ih =>
    intro bag hI hG
    obtain ⟨bag1, hstep, hI1, hG1⟩ := nerStep_ok bag e hI hG
      (hents e (List.mem_cons_self e es)).1 (hents e (List.mem_cons_self e es)).2
    obtain ⟨bag', hfold, hI', hG'⟩ :=
      ih (fun e' he' => hents e' (List.mem_cons_of_mem _ he')) bag1 hI1 hG1
    refine ⟨bag', ?_, hI', hG'⟩
    simp only [List.foldlM_cons, hstep]
    exact hfold

theorem joinSpace_ne_empty (x : String) (xs : List String) (hx : x ≠ "") :
    joinSpace (x :: xs) ≠ "" := by
  cases xs with
  | nil => simpa [joinSpace] using hx
  | cons y ys =>
    show x ++ " " ++ joinSpace (y :: ys) ≠ ""
    exact append_ne_empty_left _ _ (append_ne_empty_left _ _ hx)

theorem joinSpace_chars_ne_empty (s : String) (hs : s ≠ "") :
    joinSpace (s.data.map (fun c => String.mk [c])) ≠ "" := by
  rw [str_ne_empty_iff] at hs
  cases hd : s.data with
  | nil => exact absurd hd hs
  | cons c cs =>
    simp only [List.map_cons]
    exact joinSpace_ne_empty _ _ (by rw [str_ne_empty_iff]; simp)

theorem trimChars_ne_nil (c : Char) (cs : List Char) (hc : pyWsChar c = false) :
    trimChars (c :: cs) ≠ [] := by
  unfold trimChars
  rw [List.dropWhile_cons_of_neg (by simp [hc])]
  intro hnil
  rw [List.reverse_eq_nil_iff] at hnil
  have hall := List.dropWhile_eq_nil_iff.mp hnil
  have hcmem : c ∈ (c :: cs).reverse := by simp
  have hcontra := hall c hcmem
  rw [hc] at hcontra
  exact Bool.false_ne_true hcontra

theorem pyStrip_ne_empty (s : String) (c : Char) (cs : List Char)
    (hdata : s.data = c :: cs) (hc : pyWsChar c = false) : pyStrip s ≠ "" := by
  rw [str_ne_empty_iff]
  show trimChars s.data ≠ []
  rw [hdata]
  exact trimChars_ne_nil c cs hc

theorem pyStrip_good (s : String) (hs : s ≠ "")
    (hws : ∀ ch ∈ s.data, pyWsChar ch = false) : pyStrip s ≠ "" := by
  rw [str_ne_empty_iff] at hs
  cases hd : s.data with
  | nil => exact absurd hd hs
  | cons c cs => exact pyStrip_ne_empty s c cs hd (hws c (by rw [hd]; simp))

theorem joinSpace_head_data (x : String) (xs : List String) :
    ∃ tail, (joinSpace (x :: xs)).data = x.data ++ tail := by
  cases xs with
  | nil => exact ⟨[], by simp [joinSpace]⟩
  | cons y ys =>
    refine ⟨" ".data ++ (joinSpace (y :: ys)).data, ?_⟩
    show (x ++ " " ++ joinSpace (y :: ys)).data = _
    rw [String.data_append, String.data_append, List.append_assoc]

theorem searchValue_good (x : String) (xs : List String)
    (hx : x ≠ "") (hws : ∀ ch ∈ x.data, pyWsChar ch = false) :
    pyStrip (joinSpace (x :: xs)) ≠ "" := by
  obtain ⟨tail, htail⟩ := joinSpace_head_data x xs
  rw [str_ne_empty_iff] at hx
  cases hd : x.data with
  | nil => exact absurd hd hx
  | cons c cs =>
    apply pyStrip_ne_empty (joinSpace (x :: xs)) c (cs ++ tail)
    · rw [htail, hd]
      simp
    · exact hws c (by rw [hd]; simp)

theorem collectNameParts_mem (l : List Token) (acc : List String) :
    ∀ x ∈ collectNameParts acc l, x ∈ acc ∨ ∃ t ∈ l, x = t.text := by
  induction l generalizing acc with
  | nil =>
    intro x hx
    exact Or.inl hx
  | cons t rest ih =>
    intro x hx
    simp only [collectNameParts] at hx
    by_cases h1 : (t.is_punct || t.pos_ == "VERB") = true
    · rw [if_pos h1] at hx
      exact Or.inl hx
    · rw [if_neg h1] at hx
      by_cases h2 : ((acc ++ [t.text]).length > 3)
      · rw [if_pos h2] at hx
        rcases List.mem_append.mp hx with h | h
        · exact Or.inl h
        · exact Or.inr ⟨t, List.mem_cons_self t rest, List.mem_singleton.mp h⟩
      · rw [if_neg h2] at hx
        rcases ih (acc ++ [t.text]) x hx with h | h
        · rcases List.mem_append.mp h with h | h
          · exact Or.inl h
          · exact Or.inr ⟨t, List.mem_cons_self t rest, List.mem_singleton.mp h⟩
        · obtain ⟨t', ht', hxx⟩ := h
          exact Or.inr ⟨t', List.mem_cons_of_mem _ ht', hxx⟩

theorem appNameScan_good (toks : List Token)
    (htok : ∀ t ∈ toks, goodTokenText t) (nm : String)
    (h : appNameScan toks = some nm) : nm ≠ "" := by
  induction toks with
  | nil => simp [appNameScan] at h
  | cons t rest ih =>
    simp only [appNameScan] at h
    by_cases h1 : (["open", "launch", "start", "close", "quit", "exit"].contains t.lemma_
        && !rest.isEmpty) = true
    · rw [if_pos h1] at h
      by_cases h2 : (!(collectNameParts [] rest).isEmpty) = true
      · rw [if_pos h2] at h
        injection h with h
        subst h
        cases hp : collectNameParts [] rest with
        | nil =>
          rw [hp] at h2
          simp at h2
        | cons x xs =>
          apply joinSpace_ne_empty
          rcases collectNameParts_mem rest [] x (by rw [hp]; simp) with hc | hc
          · exact absurd hc (List.not_mem_nil x)
          · obtain ⟨t', ht', hxx⟩ := hc
            rw [hxx]
            exact (htok t' (List.mem_cons_of_mem _ ht')).1
      · rw [if_neg h2] at h
        exact ih (fun t' ht' => htok t' (List.mem_cons_of_mem _ ht')) h
    · rw [if_neg h1] at h
      exact ih (fun t' ht' => htok t' (List.mem_cons_of_mem _ ht')) h

theorem mem_of_searchTriggerRest (toks rest : List Token)
    (h : searchTriggerRest toks = some rest) : ∀ t ∈ rest, t ∈ toks := by
  induction toks with
  | nil => simp [searchTriggerRest] at h
  | cons t0 ts ih =>
    unfold searchTriggerRest at h
    by_cases hc : (["search", "find", "look up", "google"].contains t0.lemma_) = true
    · rw [if_pos hc] at h
      injection h with h
      subst h
      intro t ht
      exact List.mem_cons_of_mem _ ht
    · rw [if_neg hc] at h
      intro t ht
      exact List.mem_cons_of_mem _ (ih h t ht)

theorem searchQueryParts_eq_nil (toks : List Token)
    (htrig : searchTriggerRest toks = some []) : searchQueryParts toks = [] := by
  unfold searchQueryParts
  rw [htrig]
  rfl

theorem searchQueryParts_eq_cons (toks : List Token) (t0 : Token) (rest : List Token)
    (htrig : searchTriggerRest toks = some (t0 :: rest)) :
    searchQueryParts toks =
      ((if ["for", "about", "on"].contains t0.lemma_ then rest
          else t0 :: rest).dropWhile
        (fun t => t.pos_ == "DET" || t.pos_ == "PRON")).map (fun t => t.text) := by
  unfold searchQueryParts
  rw [htrig]

theorem searchQueryParts_mem (toks : List Token) :
    ∀ x ∈ searchQueryParts toks, ∃ t ∈ toks, x = t.text := by
  intro x hx
  cases htrig : searchTriggerRest toks with
  | none =>
    unfold searchQueryParts at hx
    rw [htrig] at hx
    exact absurd hx (List.not_mem_nil x)
  | some afterTrig =>
    cases afterTrig with
    | nil =>
      rw [searchQueryParts_eq_nil toks htrig] at hx
      exact absurd hx (List.not_mem_nil x)
    | cons t0 rest =>
      rw [searchQueryParts_eq_cons toks t0 rest htrig] at hx
      obtain ⟨t, ht, hxx⟩ := List.mem_map.mp hx
      refine ⟨t, ?_, hxx.symm⟩
      have htAP : t ∈ (if ["for", "about", "on"].contains t0.lemma_ then rest
          else t0 :: rest) :=
        (List.dropWhile_sublist _).subset ht
      have htd : t ∈ t0 :: rest := by
        by_cases hc : (["for", "about", "on"].contains t0.lemma_) = true
        · rw [if_pos hc] at htAP
          exact List.mem_cons_of_mem _ htAP
        · rw [if_neg hc] at htAP
          exact htAP
      exact mem_of_searchTriggerRest toks (t0 :: rest) htrig t htd

theorem targetScan_mem (l : List Token) (s : String) (h : targetScan l = some s) :
    ∃ t ∈ l, s = pyStrip t.text := by
  induction l with
  | nil => simp [targetScan] at h
  | cons t rest ih =>
    simp only [targetScan] at h
    by_cases h1 : targetSkip t = true
    · rw [if_pos h1] at h
      obtain ⟨t', ht', hs⟩ := ih h
      exact ⟨t', List.mem_cons_of_mem _ ht', hs⟩
    · rw [if_neg h1] at h
      by_cases h2 : isIpQuad (pyStrip t.text) = true
      · rw [if_pos h2] at h
        injection h with h
        exact ⟨t, List.mem_cons_self t rest, h.symm⟩
      · rw [if_neg h2] at h
        by_cases h3 : domainCheck t (pyStrip t.text) = true
        · rw [if_pos h3] at h
          injection h with h
          exact ⟨t, List.mem_cons_self t rest, h.symm⟩
        · rw [if_neg h3] at h
          obtain ⟨t', ht', hs⟩ := ih h
          exact ⟨t', List.mem_cons_of_mem _ ht', hs⟩

theorem goodBag_datetimeJoin (bag : EntityBag) (hG : GoodBag bag) :
    GoodBag (datetimeJoinPhase bag) := by
  unfold datetimeJoinPhase
  cases hget : dictGet bag "datetime" with
  | none => exact hG
  | some v =>
    apply goodBag_dictSet _ _ _ hG
    have hv : GoodVal v := hG _ (mem_of_dictGet _ _ _ hget)
    cases v with
    | s str =>
      show joinSpace (str.data.map (fun c => String.mk [c])) ≠ ""
      exact joinSpace_chars_ne_empty str hv
    | l xs =>
      show joinSpace xs ≠ ""
      cases xs with
      | nil => exact absurd rfl hv.1
      | cons x rest => exact joinSpace_ne_empty x rest (hv.2 x (List.mem_cons_self x rest))

theorem goodBag_emailPhase (toks : List Token) :
    ∀ bag, (∀ t ∈ toks, goodTokenText t) → GoodBag bag →
      GoodBag (emailPhase toks bag) := by
  induction toks with
  | nil =>
    intro bag _ hG
    exact hG
  | cons t ts ih =>
    intro bag htok hG
    have hstep : GoodBag (if t.like_email = true
        then dictSet bag "email_address" (.s t.text) else bag) := by
      split
      · exact goodBag_dictSet _ _ _ hG (htok t (List.mem_cons_self t ts)).1
      · exact hG
    exact ih _ (fun t' ht' => htok t' (List.mem_cons_of_mem _ ht')) hstep

theorem goodBag_appNamePhase (intent : String) (toks : List Token) (bag : EntityBag)
    (htok : ∀ t ∈ toks, goodTokenText t) (hG : GoodBag bag) :
    GoodBag (appNamePhase intent toks bag) := by
  unfold appNamePhase
  split
  · cases hscan : appNameScan toks with
    | none => exact hG
    | some nm =>
      apply goodBag_dictSet _ _ _ hG
      refine ⟨by simp, fun x hx => ?_⟩
      rw [List.mem_singleton.mp hx]
      exact appNameScan_good toks htok nm hscan
  · exact hG

theorem goodBag_searchPhase (intent : String) (toks : List Token) (bag : EntityBag)
    (htok : ∀ t ∈ toks, goodTokenText t) (hG : GoodBag bag) :
    GoodBag (searchPhase intent toks bag) := by
  simp only [searchPhase]
  split
  · split
    · next hqp =>
      apply goodBag_dictSet _ _ _ hG
      cases hq : searchQueryParts toks with
      | nil =>
        rw [hq] at hqp
        simp at hqp
      | cons x xs =>
        show pyStrip (joinSpace (x :: xs)) ≠ ""
        obtain ⟨t, ht, hxx⟩ := searchQueryParts_mem toks x (by rw [hq]; simp)
        rw [hxx]
        exact searchValue_good _ xs (htok t ht).1 (htok t ht).2
    · exact hG
  · exact hG

theorem goodBag_targetPhase (intent : String) (toks : List Token) (bag : EntityBag)
    (htok : ∀ t ∈ toks, goodTokenText t) (hG : GoodBag bag) :
    GoodBag (targetPhase intent toks bag) := by
  unfold targetPhase
  split
  · cases htrig : nmapTriggerRest toks with
    | none => exact hG
    | some rest =>
      dsimp only
      cases hscan : targetScan rest with
      | none => exact hG
      | some tgt =>
        apply goodBag_dictSet _ _ _ hG
        show tgt ≠ ""
        obtain ⟨t, ht, hs⟩ := targetScan_mem rest tgt hscan
        rw [hs]
        have htt := htok t (mem_of_nmapTriggerRest toks rest htrig t ht)
        exact pyStrip_good t.text htt.1 htt.2
  · exact hG

/-- C8: on well-formed input, entity extraction completes without raising
(an `.ok` result) and no key of the resulting bag is bound to an empty
string or empty list: a not-found entity is simply an absent key. -/
theorem claim_C8 (d : Doc) (hw : wellFormedDoc d) :
    ∃ bag, extract_entities d = .ok bag ∧
      ∀ p ∈ bag, p.2 ≠ EVal.s "" ∧ p.2 ≠ EVal.l [] := by
  obtain ⟨htok, hent, hlab⟩ := hw
  obtain ⟨b1, hfold, _, hG1⟩ := nerFold_ok d.ents
    (fun e he => ⟨hlab e he, hent e he⟩) []
    (fun p hp => absurd hp (List.not_mem_nil p))
    (fun p hp => absurd hp (List.not_mem_nil p))
  have hG3 : GoodBag (emailPhase d.tokens (datetimeJoinPhase b1)) :=
    goodBag_emailPhase d.tokens (datetimeJoinPhase b1) htok
      (goodBag_datetimeJoin b1 hG1)
  have hG6 := goodBag_targetPhase (recognize_intent d.tokens) d.tokens _ htok
    (goodBag_searchPhase (recognize_intent d.tokens) d.tokens _ htok
      (goodBag_appNamePhase (recognize_intent d.tokens) d.tokens _ htok hG3))
  refine ⟨_, ?_, fun p hp => goodVal_ne _ (hG6 p hp)⟩
  unfold extract_entities nerEmailPhase
  rw [hfold]
  rfl

theorem claim_C8_witness :
    wellFormedDoc docNmap ∧
    ∃ bag, extract_entities docNmap = .ok bag ∧
      ∀ p ∈ bag, p.2 ≠ EVal.s "" ∧ p.2 ≠ EVal.l [] := by
  have hw : wellFormedDoc docNmap := by
    unfold wellFormedDoc goodTokenText
    decide
  exact ⟨hw, claim_C8 docNmap hw⟩
